import Mathlib

set_option maxRecDepth 8192

/-!
Shallow embedding of `src/platform/linux/event.c` (the evdev input platform of
the arcan engine): the per-axis analog filter pipeline, the device registry,
the capability-based classifier and the per-class event decoders, together
with proofs about the spec's claims over these definitions.

C `int16_t` values are modelled as `Int` with explicit two's-complement
truncation (`wrap16`) at every point where the C code converts a wider value
into an `int16_t`.  C `int` fields that provably only ever hold small
non-negative values (`kernel_sz`, `kernel_ofs`, counters) are modelled as
`Nat`; the configuration call clamps `kernel_sz` into `[1,64]` and the
creation paths zero-initialise both fields, so no negative value ever arises
in the C code either.
-/

/-- Device-count ceiling for the dense devid range (`#define MAX_DEVICES 256`). -/
def MAX_DEVICES : Nat := 256

/-- Linux input-event type codes used by the decoders (`linux/input.h`). -/
def EV_KEY : Nat := 1

/-- Relative-motion event type code. -/
def EV_REL : Nat := 2

/-- Absolute-axis event type code. -/
def EV_ABS : Nat := 3

/-- Largest key/button code probed by `button_count` (`KEY_MAX = 0x2ff`). -/
def KEY_MAX : Nat := 767

/-- Largest absolute-axis code probed by `map_axes` (`ABS_MAX = 0x3f`). -/
def ABS_MAX : Nat := 63

/-- Canonical mouse button code (`BTN_MOUSE = BTN_LEFT = 0x110`). -/
def BTN_MOUSE : Nat := 272

/-- Left mouse button code (`0x110`). -/
def BTN_LEFT : Nat := 272

/-- Right mouse button code (`0x111`). -/
def BTN_RIGHT : Nat := 273

/-- Middle mouse button code (`0x112`). -/
def BTN_MIDDLE : Nat := 274

/-- First joystick button code (`0x120`). -/
def BTN_JOYSTICK : Nat := 288

/-- First gamepad button code (`0x130`). -/
def BTN_GAMEPAD : Nat := 304

/-- Wheel button code (`0x150`). -/
def BTN_WHEEL : Nat := 336

/-- Relative X axis code. -/
def REL_X : Nat := 0

/-- Relative Y axis code. -/
def REL_Y : Nat := 1

/-- First hat-switch absolute axis code (`ABS_HAT0X = 0x10`). -/
def ABS_HAT0X : Nat := 16

/-- Last hat-switch absolute axis code (`ABS_HAT3Y = 0x17`). -/
def ABS_HAT3Y : Nat := 23

/-- Analog filter modes.  Modelled from the spec: the enum
`ARCAN_ANALOGFILTER_KIND` is declared in `arcan_event.h`, which is not part
of `src/`; the spec (section 3, Axis Filter) names the modes Disabled
(`NONE`), PassThrough (`PASS`), Average (`AVG`) and KeepLast (`ALAST`), which
are exactly the constants `event.c` uses.  Zero-initialised memory
corresponds to `NONE`. -/
inductive AKind where
  | NONE
  | PASS
  | AVG
  | ALAST
deriving DecidableEq

/-- Per-axis filter state, mirroring `struct axis_opts` (event.c lines
90-104).  `flt_kernel` is the `int32_t [64]` ring buffer, kept as a list of
fixed length 64. -/
structure axis_opts where
  mode : AKind := AKind.NONE
  oldmode : AKind := AKind.NONE
  lower : Int := 0
  upper : Int := 0
  deadzone : Int := 0
  inlzone : Bool := false
  inuzone : Bool := false
  indzone : Bool := false
  kernel_sz : Nat := 0
  kernel_ofs : Nat := 0
  flt_kernel : List Int := List.replicate 64 0
deriving DecidableEq

/-- Two's-complement truncation of an integer into the `int16_t` range, used
wherever the C code stores a wider value into an `int16_t`. -/
def wrap16 (z : Int) : Int := (z + 32768) % 65536 - 32768

/-- Deadzone stage of `process_axis` (event.c lines 268-278): on first entry
into the deadzone the sample is zeroed and the flag set; while the flag is
set further in-zone samples are rejected; an out-of-zone sample clears the
flag and passes through unchanged.  Returns the updated state and `none` on
rejection. -/
def dzStep (a : axis_opts) (samplev : Int) : axis_opts × Option Int :=
  if |samplev| < a.deadzone then
    if a.indzone = false then ({a with indzone := true}, some 0)
    else (a, none)
  else ({a with indzone := false}, some samplev)

/-- Edge-hysteresis stage of `process_axis` (event.c lines 280-300): first
entry below `lower` (above `upper`) emits the clamped bound and sets the
zone flag, further out-of-band samples are rejected, and an in-band sample
clears both flags.  The clamp assignments store `int` bounds into the
`int16_t` sample, hence `wrap16`. -/
def edgeStep (a : axis_opts) (samplev : Int) : axis_opts × Option Int :=
  if samplev < a.lower then
    if a.inlzone = false then
      ({a with inlzone := true, inuzone := false}, some (wrap16 a.lower))
    else (a, none)
  else if samplev > a.upper then
    if a.inuzone = false then
      ({a with inuzone := true, inlzone := false}, some (wrap16 a.upper))
    else (a, none)
  else ({a with inlzone := false, inuzone := false}, some samplev)

/-- Rolling-kernel stage of `process_axis` (event.c lines 302-327): append
the conditioned sample at `kernel_ofs`; while the kernel is not yet full
reject; once full emit — for `ALAST` the most recent cell, for other
multi-sample modes the truncating average with a zero-sum special case, for
kernel size 1 the sample itself — and reset `kernel_ofs` to 0.  The two
emission assignments store wider values into the `int16_t` sample, hence
`wrap16` (value-preserving in the reachable states, where every cell is in
`int16_t` range). -/
def kernelStep (a : axis_opts) (samplev : Int) : axis_opts × Option Int :=
  let a1 : axis_opts :=
    {a with flt_kernel := a.flt_kernel.set a.kernel_ofs samplev,
            kernel_ofs := a.kernel_ofs + 1}
  if a1.kernel_ofs < a1.kernel_sz then (a1, none)
  else
    let outv : Int :=
      if 1 < a1.kernel_sz then
        if a1.mode = AKind.ALAST then wrap16 (a1.flt_kernel.getD (a1.kernel_sz - 1) 0)
        else
          let tot : Int := (a1.flt_kernel.take a1.kernel_sz).sum
          if tot ≠ 0 then wrap16 (Int.tdiv tot (a1.kernel_sz : Int)) else 0
      else samplev
    ({a1 with kernel_ofs := 0}, some outv)

/-- Deadzone stage followed by the edge stage, applied to the `int16_t`
truncation of the raw sample (the `int16_t samplev` parameter of
`process_axis`).  A sample for which this returns `some v` is exactly a
sample that `process_axis` appends to the kernel, and `v` is the value
appended. -/
def conditionStep (a : axis_opts) (samplev : Int) : axis_opts × Option Int :=
  match dzStep a (wrap16 samplev) with
  | (a1, none) => (a1, none)
  | (a1, some s1) => edgeStep a1 s1

/-- The axis-filter sampling function `process_axis` (event.c lines
259-328).  `NONE` rejects, `PASS` accepts the raw (`int16_t`-truncated)
sample immediately, other modes run the deadzone, edge and kernel stages. -/
def process_axis (a : axis_opts) (samplev : Int) : axis_opts × Option Int :=
  if a.mode = AKind.NONE then (a, none)
  else if a.mode = AKind.PASS then (a, some (wrap16 samplev))
  else
    match conditionStep a samplev with
    | (a1, none) => (a1, none)
    | (a1, some s2) => kernelStep a1 s2

/-- `set_analogstate` (event.c lines 330-341): store the given bounds, mode
and kernel size and reset the rolling offset. -/
def set_analogstate (a : axis_opts) (lower_bound upper_bound deadzone : Int)
    (kernel_size : Nat) (mode : AKind) : axis_opts :=
  {a with lower := lower_bound, upper := upper_bound, deadzone := deadzone,
          kernel_sz := kernel_size, mode := mode, kernel_ofs := 0}

/-- The per-axis body of `platform_event_analogfilter` (event.c lines
416-424): clamp the requested kernel size to the 64-entry maximum and to at
least 1, then store the state.  (The surrounding function merely locates the
axis via `find_axis`.) -/
def analogfilter_set (a : axis_opts) (lower_bound upper_bound deadzone : Int)
    (buffer_sz : Int) (kind : AKind) : axis_opts :=
  let kernel_lim : Int := 64
  let b1 : Int := if buffer_sz > kernel_lim then kernel_lim else buffer_sz
  let b2 : Int := if b1 ≤ 0 then 1 else b1
  set_analogstate a lower_bound upper_bound deadzone b2.toNat kind

/-- One creation-time game axis as initialised by `map_axes` (event.c lines
600-616): zeroed state, mode `AVG`, bounds from the reported hardware range
(`none` models a failing `EVIOCGABS` query, keeping the signed 16-bit
defaults).  Note that `kernel_sz` is left at 0 by the creation path. -/
def map_axes_axis (rng : Option (Int × Int)) : axis_opts :=
  let ax : axis_opts :=
    { mode := AKind.AVG, oldmode := AKind.AVG, lower := -32768, upper := 32767 }
  match rng with
  | none => ax
  | some (lo, hi) => {ax with upper := hi, lower := lo}

/-- One interaction with an axis filter: a configuration call
(`platform_event_analogfilter`) or a sampling call (`process_axis`). -/
inductive FilterOp where
  | config (lower_bound upper_bound deadzone buffer_sz : Int) (kind : AKind)
  | sample (v : Int)

/-- Apply one `FilterOp` to an axis state. -/
def applyOp (a : axis_opts) : FilterOp → axis_opts
  | FilterOp.config l u d b k => analogfilter_set a l u d b k
  | FilterOp.sample v => (process_axis a v).1

/-- Apply a sequence of filter operations in order. -/
def applyOps (a : axis_opts) (ops : List FilterOp) : axis_opts :=
  ops.foldl applyOp a

/-- Run `process_axis` over a sample sequence, collecting the emitted
outputs in order. -/
def runFilter (a : axis_opts) : List Int → axis_opts × List Int
  | [] => (a, [])
  | s :: ss =>
    match process_axis a s with
    | (a1, out) =>
      let r := runFilter a1 ss
      (r.1, match out with | none => r.2 | some v => v :: r.2)

/-- The samples of a sequence that the filter accepts into its kernel, as
the values the deadzone/edge stages turn them into (the claims' "accepted
(in-band) samples").  The state is threaded through `process_axis` itself,
so kernel-offset evolution is identical to `runFilter`'s. -/
def acceptedVals (a : axis_opts) : List Int → List Int
  | [] => []
  | s :: ss =>
    match (conditionStep a s).2 with
    | none => acceptedVals (process_axis a s).1 ss
    | some v => v :: acceptedVals (process_axis a s).1 ss

/-- Modelled from the spec's words: the integer mean of a batch, truncated
toward zero (C `tot / kernel_sz` on `int`s). -/
def truncAvg (l : List Int) (K : Nat) : Int := Int.tdiv l.sum (K : Int)

/-- Modelled from the spec's words: the outputs an Average-mode filter with
kernel size `K` must produce, one truncated mean per completed batch of `K`
accepted samples, given the partial batch `acc` already collected. -/
def blocksOut (K : Nat) : List Int → List Int → List Int
  | _, [] => []
  | acc, v :: vs =>
    if acc.length + 1 = K then truncAvg (acc ++ [v]) K :: blocksOut K [] vs
    else blocksOut K (acc ++ [v]) vs

/-- Device classes, mirroring `enum devnode_type`.  Modelled from the spec:
the enum is declared in `device_db.h`, not part of `src/`; the spec's data
model lists Keyboard, Mouse, GameController, Sensor, Touch and Unclassified. -/
inductive devnode_type where
  | DEVNODE_SENSOR
  | DEVNODE_GAME
  | DEVNODE_MOUSE
  | DEVNODE_KEYBOARD
  | DEVNODE_TOUCH
  | DEVNODE_UNKNOWN
deriving DecidableEq

/-- One registered device, mirroring `struct arcan_devnode` (event.c lines
120-158).  The C union of per-class sub-state is flattened into a product: a
node of a given `type` only ever uses its own class's fields, so the
flattening is faithful.  `handle` is the poll descriptor (0 or negative
marks an empty/disconnected slot), `devnum` the derived 16-bit identity. -/
structure arcan_devnode where
  handle : Int := 0
  label : String := ""
  devnum : Nat := 0
  button_count : Nat := 0
  type : devnode_type := devnode_type.DEVNODE_SENSOR
  sensor_data : axis_opts := {}
  game_axes : Nat := 0
  game_hats : List Int := List.replicate 16 0
  game_adata : List axis_opts := []
  cursor_mx : Nat := 0
  cursor_my : Nat := 0
  cursor_flt0 : axis_opts := {}
  cursor_flt1 : axis_opts := {}
  keyboard_state : Nat := 0
deriving DecidableEq

/-- A zeroed device slot (what `memset`/`calloc` produce in the node table). -/
def emptyNode : arcan_devnode := {}

/-- The process-wide registry `iodev` (event.c lines 106-118): logical
device count `n_devs`, allocated slot count `sz_nodes`, the designated
primary mouse identity, the node table and the parallel pollset. -/
structure iodev_state where
  n_devs : Nat := 0
  sz_nodes : Nat := 0
  mouseid : Nat := 0
  nodes : List arcan_devnode := []
  pollset : List (Int × Bool) := []
deriving DecidableEq

/-- The registry at startup. -/
def emptyIo : iodev_state := {}

/-- Result of the slot scan in `got_device` (event.c lines 740-758): either
the index of a slot whose `devnum` matches, or the first empty slot seen
(the "hole"), if any. -/
inductive ScanRes where
  | matched (i : Nat)
  | nomatch (hole : Option Nat)
deriving DecidableEq

/-- The slot scan of `got_device`: walk the node table; the first slot with
an invalid handle is remembered as the hole and *skipped* (its `devnum` is
never compared); any other slot whose `devnum` equals the new device's
identity terminates the scan. -/
def scanSlots (devnum : Nat) : List arcan_devnode → Nat → Option Nat → ScanRes
  | [], _, hole => ScanRes.nomatch hole
  | n :: rest, i, hole =>
    if hole = none ∧ n.handle ≤ 0 then scanSlots devnum rest (i + 1) (some i)
    else if n.devnum = devnum then ScanRes.matched i
    else scanSlots devnum rest (i + 1) hole

/-- Bookkeeping record for the observable side effects of a registration:
which old descriptor was closed on a reconnect splice, whether the
device-limit branch closed the incoming descriptor, and where the node
ended up. -/
structure reg_result where
  outcome : ScanRes
  closed_old : Option Int := none
  limit_closed : Bool := false
deriving DecidableEq

/-- The registration step of `got_device` (event.c lines 647-650 and
739-791), taking the fully classified node (whose `handle` is the new
descriptor).  The `n_devs >= MAX_DEVICES` branch warns and closes the
descriptor but — lacking a `return` — does not stop the registration.  A
matched slot has the new descriptor spliced in (closing the old one if it
was valid) and everything else in the slot untouched; otherwise the node is
stored in the first hole, growing the table by 8 zeroed slots when no hole
exists (allocation is modelled as always succeeding). -/
def registerNode (io : iodev_state) (node : arcan_devnode) : iodev_state × reg_result :=
  let limit_closed : Bool := decide (io.n_devs ≥ MAX_DEVICES)
  match scanSlots node.devnum io.nodes 0 none with
  | ScanRes.matched i =>
    let old := io.nodes.getD i emptyNode
    ({io with nodes := io.nodes.set i {old with handle := node.handle},
              pollset := io.pollset.set i (node.handle, true)},
     {outcome := ScanRes.matched i,
      closed_old := if old.handle > 0 then some old.handle else none,
      limit_closed := limit_closed})
  | ScanRes.nomatch hole =>
    let grown : iodev_state × Nat :=
      match hole with
      | some h => (io, h)
      | none =>
        ({io with sz_nodes := io.sz_nodes + 8,
                  nodes := io.nodes ++ List.replicate 8 emptyNode,
                  pollset := io.pollset ++ List.replicate 8 ((0 : Int), false)},
         io.sz_nodes)
    let io1 := grown.1
    let h := grown.2
    ({io1 with n_devs := io1.n_devs + 1,
               nodes := io1.nodes.set h node,
               pollset := io1.pollset.set h (node.handle, true)},
     {outcome := ScanRes.nomatch hole, closed_old := none, limit_closed := limit_closed})

/-- `lookup_devnode` (event.c lines 167-181): negative ids resolve to the
primary mouse; ids below the current device count are direct slot offsets;
anything else is matched by linear scan against the stored identities. -/
def lookup_devnode (io : iodev_state) (devid : Int) : Option arcan_devnode :=
  let devid : Int := if devid < 0 then (io.mouseid : Int) else devid
  if devid < (io.n_devs : Int) then some (io.nodes.getD devid.toNat emptyNode)
  else (io.nodes.take io.n_devs).find? (fun n => (n.devnum : Int) == devid)

/-- The per-class axis selection of `find_axis` (event.c lines 351-372):
sensors expose axis 0, game devices their `game.axes` axes, mice axes 0 and
1; other classes expose none. -/
def axisFor (node : arcan_devnode) (axisid : Nat) : Option axis_opts :=
  match node.type with
  | devnode_type.DEVNODE_SENSOR =>
    if axisid = 0 then some node.sensor_data else none
  | devnode_type.DEVNODE_GAME =>
    if axisid < node.game_axes then some (node.game_adata.getD axisid {}) else none
  | devnode_type.DEVNODE_MOUSE =>
    if axisid = 0 then some node.cursor_flt0
    else if axisid = 1 then some node.cursor_flt1
    else none
  | _ => none

/-- `find_axis` (event.c lines 343-373): resolve the device, report through
the second component whether it exists, and select the axis. -/
def find_axis (io : iodev_state) (devid : Int) (axisid : Nat) :
    Option axis_opts × Bool :=
  match lookup_devnode io devid with
  | none => (none, false)
  | some node => (axisFor node axisid, true)

/-- Status codes returned by the analog query interface.  Modelled from the
spec: `arcan_errc` is declared outside `src/`; only the three constants the
function uses are needed. -/
inductive arcan_errc where
  | ARCAN_OK
  | ARCAN_ERRC_BAD_RESOURCE
  | ARCAN_ERRC_NO_SUCH_OBJECT
deriving DecidableEq

/-- The five output parameters of `platform_event_analogstate`, modelled as
an explicit in/out record so that "the error paths write nothing" is a
provable statement. -/
structure analog_outs where
  lower_bound : Int := 0
  upper_bound : Int := 0
  deadzone : Int := 0
  kernel_size : Nat := 0
  mode : AKind := AKind.NONE
deriving DecidableEq

/-- `platform_event_analogstate` (event.c lines 375-393): look the axis up;
a missing device yields `ARCAN_ERRC_NO_SUCH_OBJECT`, a device without that
axis `ARCAN_ERRC_BAD_RESOURCE`, both leaving the out parameters untouched;
otherwise all five outputs are filled from the axis state under `ARCAN_OK`. -/
def platform_event_analogstate (io : iodev_state) (devid : Int) (axisid : Nat)
    (outs : analog_outs) : arcan_errc × analog_outs :=
  match find_axis io devid axisid with
  | (none, gotnode) =>
    (if gotnode then arcan_errc.ARCAN_ERRC_BAD_RESOURCE
     else arcan_errc.ARCAN_ERRC_NO_SUCH_OBJECT, outs)
  | (some axis, _) =>
    (arcan_errc.ARCAN_OK,
     {lower_bound := axis.lower, upper_bound := axis.upper,
      deadzone := axis.deadzone, kernel_size := axis.kernel_sz,
      mode := axis.mode})

/-- `button_count` (event.c lines 538-560) over the EV_KEY capability
bitmask: the number of supported key codes below `KEY_MAX`, whether a
canonical mouse button is present, and whether a canonical joystick button
is present. -/
def button_count (bits : List Bool) : Nat × Bool × Bool :=
  let count := ((List.range KEY_MAX).filter (fun i => bits.getD i false)).length
  let got_mouse := bits.getD BTN_MOUSE false || bits.getD BTN_LEFT false ||
    bits.getD BTN_RIGHT false || bits.getD BTN_MIDDLE false
  let got_joy := bits.getD BTN_JOYSTICK false || bits.getD BTN_GAMEPAD false ||
    bits.getD BTN_WHEEL false
  (count, got_mouse, got_joy)

/-- `check_mouse_axis` (event.c lines 562-571): both relative X and Y are
supported. -/
def check_mouse_axis (bits : List Bool) : Bool :=
  bits.getD REL_X false && bits.getD REL_Y false

/-- `map_axes` (event.c lines 573-617) over the EV_ABS capability bitmask:
allocate one `AVG`-mode axis filter per supported absolute axis, seeding its
bounds from the reported hardware range (`ranges i = none` models a failing
`EVIOCGABS(i)`); a node that already has axis data is left untouched. -/
def map_axes (absbits : List Bool) (ranges : Nat → Option (Int × Int))
    (node : arcan_devnode) : arcan_devnode :=
  if node.game_adata ≠ [] then node
  else if ((List.range ABS_MAX).filter (fun i => absbits.getD i false)).length = 0 then
    {node with game_axes := 0}
  else
    {node with
      game_axes := ((List.range ABS_MAX).filter (fun i => absbits.getD i false)).length,
      game_adata := ((List.range ABS_MAX).filter (fun i => absbits.getD i false)).map
        (fun i => map_axes_axis (ranges i))}

/-- The capability probe and classification decision of `got_device`
(event.c lines 664-733) for a device *without* a label-override handler:
preset the type to `DEVNODE_GAME`; probe buttons, relative axes and
absolute axes according to the EV capability bits; then classify — relative
X and Y plus a mouse-button signature makes a Mouse with both cursor
filters forced to pass-through, no mouse or joystick buttons with more than
84 counted buttons makes a Keyboard, anything else stays a game device. -/
def got_device_classify (node0 : arcan_devnode) (evbits keybits relbits absbits : List Bool)
    (ranges : Nat → Option (Int × Int)) : arcan_devnode :=
  let node1 : arcan_devnode := {node0 with type := devnode_type.DEVNODE_GAME}
  let key_probe : Nat × Bool × Bool :=
    if evbits.getD EV_KEY false then button_count keybits
    else (node1.button_count, false, false)
  let node2 : arcan_devnode := {node1 with button_count := key_probe.1}
  let mouse_btn := key_probe.2.1
  let joystick_btn := key_probe.2.2
  let mouse_ax : Bool :=
    if evbits.getD EV_REL false then check_mouse_axis relbits else false
  let node3 : arcan_devnode :=
    if evbits.getD EV_ABS false then map_axes absbits ranges node2 else node2
  if mouse_ax && mouse_btn then
    {node3 with type := devnode_type.DEVNODE_MOUSE,
                cursor_flt0 := {node3.cursor_flt0 with mode := AKind.PASS},
                cursor_flt1 := {node3.cursor_flt1 with mode := AKind.PASS}}
  else if !mouse_btn && !joystick_btn && decide (node3.button_count > 84) then
    {node3 with type := devnode_type.DEVNODE_KEYBOARD}
  else node3

/-- One raw driver record (`struct input_event`, payload fields only). -/
structure input_event where
  type : Nat := 0
  code : Nat := 0
  value : Int := 0
deriving DecidableEq

/-- A digital event emitted by the hat decoder: the sub-id and the active
flag of the normalized event. -/
structure hat_ev where
  subid : Nat
  active : Bool
deriving DecidableEq

/-- `decode_hat` (event.c lines 932-981) acting on the per-device
`char hats[16]` state for hat index `ind0` (0..7) and raw component value
`val0`.  A zero value releases whichever of the two directions of this
component are currently active (each with its own digital event); a nonzero
value is clamped to ±1, stored in the direction's cell and announced active
— without touching the opposite direction. -/
def decode_hat (hats : List Int) (ind0 : Nat) (val0 : Int) :
    List Int × List hat_ev :=
  let ind := ind0 * 2
  let base : Nat := 64
  if val0 < 0 then
    (hats.set ind (-1), [{subid := base + ind, active := true}])
  else if val0 > 0 then
    (hats.set (ind + 1) 1, [{subid := base + ind + 1, active := true}])
  else
    let ev0 : List hat_ev :=
      if hats.getD ind 0 ≠ 0 then [{subid := base + ind, active := false}] else []
    let hats1 := if hats.getD ind 0 ≠ 0 then hats.set ind 0 else hats
    let ev1 : List hat_ev :=
      if hats1.getD (ind + 1) 0 ≠ 0 then
        [{subid := base + ind + 1, active := false}] else []
    let hats2 := if hats1.getD (ind + 1) 0 ≠ 0 then hats1.set (ind + 1) 0 else hats1
    (hats2, ev0 ++ ev1)

/-- One normalized translated-key event as filled in by `defhandler_kbd`. -/
structure translated_ev where
  scancode : Nat
  keysym : Nat
  modifiers : Nat
  subid : Nat
  active : Bool
deriving DecidableEq

/-- `update_state` (event.c lines 832-860).  Modelled from the spec: the
keycode table `klut` and the `ARKMOD_*` constants live in `keycode_xlate.h`
and `arcan_event.h`, outside `src/`; they are abstracted as a map
`klutMod` from scancode to the modifier bit position (or `none` for a
non-modifier key, where the C function returns without change).  The
modifier mask is a C `unsigned`, so bit clearing masks within 32 bits. -/
def update_state (klutMod : Nat → Option Nat) (code : Nat) (state : Bool)
    (statev : Nat) : Nat :=
  match klutMod code with
  | none => statev
  | some m =>
    if state then statev ||| (1 <<< m)
    else statev &&& (4294967295 ^^^ (1 <<< m))

/-- Processing of one raw record by `defhandler_kbd` (event.c lines
900-929): only `EV_KEY` records produce events; the modifier state is
updated first and the event carries the updated mask, the looked-up keysym
and the looked-up character as sub-id; a raw repeat (`value == 2`) is
expanded into a release-then-press pair, otherwise one event with
`active = (value != 0)` is emitted.  `lkc` abstracts `lookup_keycode` and
`lkch` abstracts `lookup_character` (external pure tables per the spec). -/
def defhandler_kbd_record (klutMod : Nat → Option Nat) (lkc : Nat → Nat)
    (lkch : Nat → Nat → Nat) (statev : Nat) (ev : input_event) :
    Nat × List translated_ev :=
  if ev.type = EV_KEY then
    let st1 := update_state klutMod ev.code (ev.value ≠ 0) statev
    let base : translated_ev :=
      {scancode := ev.code, keysym := lkc ev.code, modifiers := st1,
       subid := lkch ev.code st1, active := false}
    if ev.value = 2 then
      (st1, [{base with active := false}, {base with active := true}])
    else (st1, [{base with active := decide (ev.value ≠ 0)}])
  else (statev, [])

/-- `defhandler_kbd` over a whole batch of raw records, threading the
modifier state and concatenating the emitted events in order. -/
def defhandler_kbd (klutMod : Nat → Option Nat) (lkc : Nat → Nat)
    (lkch : Nat → Nat → Nat) : Nat → List input_event → Nat × List translated_ev
  | statev, [] => (statev, [])
  | statev, ev :: evs =>
    let r1 := defhandler_kbd_record klutMod lkc lkch statev ev
    let r2 := defhandler_kbd klutMod lkc lkch r1.1 evs
    (r2.1, r1.2 ++ r2.2)

/-- `code_to_mouse` (event.c lines 1052-1056): map a button code into the
1-based mouse button numbering, `-1` for codes outside the canonical mouse
button range. -/
def code_to_mouse (code : Nat) : Int :=
  if code < BTN_MOUSE ∨ code ≥ BTN_JOYSTICK then -1
  else (code : Int) - (BTN_MOUSE : Int) + 1

/-- One normalized event emitted by the mouse decoder: a digital button
event or an analog axis event carrying `axisval[0]` (accumulated position)
and `axisval[1]` (per-record sample) with the relative flag set.  Modelled
from the spec: the full `arcan_event` record lives in `arcan_event.h`
outside `src/`; the payload fields hold the assigned values as integers. -/
inductive mouse_ev where
  | digital (subid : Nat) (active : Bool)
  | analog (subid : Nat) (axisval0 axisval1 : Int)
deriving DecidableEq

/-- The `uint16_t` position-counter update of `defhandler_mouse`: clamp the
sum at zero from below, reduce modulo 2^16 on store. -/
def cursor_clamp (sum : Int) : Nat :=
  if sum < 0 then 0 else (sum % 65536).toNat

/-- Processing of one raw record by `defhandler_mouse` (event.c lines
1080-1140).  Buttons outside the canonical mouse range are dropped; a
relative X record runs the axis-0 filter and, when the filter accepts, the
*raw* value (`samplev = inev[i].value`, truncated to `int16_t`) — not the
filter's output — is accumulated into `cursor.mx` and emitted; a relative Y
record accumulates and emits the filter's *output* sample. -/
def defhandler_mouse_record (node : arcan_devnode) (ev : input_event) :
    arcan_devnode × List mouse_ev :=
  if ev.type = EV_KEY then
    let samplev := code_to_mouse ev.code
    if samplev < 0 then (node, [])
    else (node, [mouse_ev.digital samplev.toNat (decide (ev.value ≠ 0))])
  else if ev.type = EV_REL then
    if ev.code = REL_X then
      match process_axis node.cursor_flt0 ev.value with
      | (flt, none) => ({node with cursor_flt0 := flt}, [])
      | (flt, some _) =>
        let samplev := wrap16 ev.value
        let mx := cursor_clamp ((node.cursor_mx : Int) + samplev)
        ({node with cursor_flt0 := flt, cursor_mx := mx},
         [mouse_ev.analog 0 (mx : Int) samplev])
    else if ev.code = REL_Y then
      match process_axis node.cursor_flt1 ev.value with
      | (flt, none) => ({node with cursor_flt1 := flt}, [])
      | (flt, some s) =>
        let my := cursor_clamp ((node.cursor_my : Int) + s)
        ({node with cursor_flt1 := flt, cursor_my := my},
         [mouse_ev.analog 1 (my : Int) s])
    else (node, [])
  else (node, [])

/-- `defhandler_mouse` over a whole batch of raw records. -/
def defhandler_mouse (node : arcan_devnode) :
    List input_event → arcan_devnode × List mouse_ev
  | [] => (node, [])
  | ev :: evs =>
    let r1 := defhandler_mouse_record node ev
    let r2 := defhandler_mouse r1.1 evs
    (r2.1, r1.2 ++ r2.2)

/-- A freshly classified synthetic device with derived identity `d`, whose
descriptor is the (positive) value `d` itself. -/
def mkFreshNode (d : Nat) : arcan_devnode :=
  {emptyNode with handle := (d : Int), devnum := d}

/-- Register a batch of synthetic devices, one `got_device` registration
step per identity. -/
def regMany (io : iodev_state) (ds : List Nat) : iodev_state :=
  ds.foldl (fun s d => (registerNode s (mkFreshNode d)).1) io

/-- The 300 distinct derived identities 256..555 of the spec's end-to-end
registration property (derived identities are always ≥ `MAX_DEVICES`). -/
def ds300 : List Nat := (List.range 300).map (fun i => 256 + i)

/-- The registry state after registering the fresh devices `ds` in order
into an initially empty registry: `ds.length` occupied slots followed by
`m` still-empty grown slots. -/
def mkState (ds : List Nat) (m : Nat) : iodev_state :=
  {n_devs := ds.length, sz_nodes := ds.length + m, mouseid := 0,
   nodes := ds.map mkFreshNode ++ List.replicate m emptyNode,
   pollset := ds.map (fun d => (Int.ofNat d, true)) ++
     List.replicate m ((0 : Int), false)}

/-- A game axis as configured through the runtime filter interface: Average
mode, kernel size 2, deadzone 10, clamp band [-100, 100]. -/
def cAxis2 : axis_opts := analogfilter_set (map_axes_axis none) (-100) 100 10 2 AKind.AVG

/-- The same configuration with kernel size 1. -/
def cAxis1 : axis_opts := analogfilter_set (map_axes_axis none) (-100) 100 10 1 AKind.AVG

/-- An Average-mode axis with kernel size 2 and no deadzone or clamping. -/
def cW1axis : axis_opts := analogfilter_set (map_axes_axis none) (-32768) 32767 0 2 AKind.AVG

/-- A disconnected mouse slot (handle 0) with identity 300 and an axis-0
filter configured to Average with deadzone 10. -/
def cOldMouse : arcan_devnode :=
  {handle := 0, devnum := 300, type := devnode_type.DEVNODE_MOUSE,
   cursor_flt0 := analogfilter_set {} (-100) 100 10 4 AKind.AVG,
   cursor_flt1 := {mode := AKind.PASS}}

/-- A live device slot with identity 301. -/
def cLive301 : arcan_devnode := {handle := 5, devnum := 301}

/-- A registry with two registered devices — slot 0 holds the disconnected
identity 300, slot 1 a live identity 301 — and six empty grown slots. -/
def cIo3 : iodev_state :=
  {n_devs := 2, sz_nodes := 8, mouseid := 300,
   nodes := [cOldMouse, cLive301] ++ List.replicate 6 emptyNode,
   pollset := [((0 : Int), false), ((5 : Int), true)] ++
     List.replicate 6 ((0 : Int), false)}

/-- The registry `cIo3` with the identity-300 slot still live (handle 4). -/
def wIo3 : iodev_state :=
  {n_devs := 2, sz_nodes := 8, mouseid := 300,
   nodes := [{cOldMouse with handle := 4}, cLive301] ++ List.replicate 6 emptyNode,
   pollset := [((4 : Int), true), ((5 : Int), true)] ++
     List.replicate 6 ((0 : Int), false)}

/-- A freshly classified mouse node for identity 300 on descriptor 7, as a
re-plug of the same physical device produces it (pass-through filters,
default bounds). -/
def cNode3 : arcan_devnode :=
  {handle := 7, devnum := 300, type := devnode_type.DEVNODE_MOUSE,
   cursor_flt0 := {mode := AKind.PASS}, cursor_flt1 := {mode := AKind.PASS}}

/-- A registered mouse whose X-axis filter was reconfigured at runtime to
Average mode with kernel size 1 and deadzone 10. -/
def cmNode : arcan_devnode :=
  {handle := 3, devnum := 400, type := devnode_type.DEVNODE_MOUSE,
   cursor_flt0 := analogfilter_set {mode := AKind.PASS} (-100) 100 10 1 AKind.AVG,
   cursor_flt1 := {mode := AKind.PASS}}

/-- A mouse with the creation-time pass-through filters and both position
counters at 10. -/
def wmNode : arcan_devnode :=
  {handle := 3, devnum := 401, type := devnode_type.DEVNODE_MOUSE,
   cursor_flt0 := {mode := AKind.PASS}, cursor_flt1 := {mode := AKind.PASS},
   cursor_mx := 10, cursor_my := 10}

/-- A centered hat state (all 16 component cells zero). -/
def hats0 : List Int := List.replicate 16 0

/-- Distinguishable initial values for the five output parameters of the
analog state query. -/
def wOuts : analog_outs :=
  {lower_bound := 11, upper_bound := 22, deadzone := 33, kernel_size := 44,
   mode := AKind.PASS}

/-- An EV_KEY capability bitmask with the 90 lowest key codes present (no
mouse or joystick button codes, more than 84 buttons). -/
def wKeybits : List Bool := List.replicate 90 true

/-- Mouse capability bitmasks: relative X and Y plus a left button. -/
def wRelbits : List Bool := [true, true]

/-- An EV_KEY bitmask holding only `BTN_LEFT`. -/
def wMousebits : List Bool := List.replicate 272 false ++ [true]

/-- The kernel-related fields of an axis state, bundled so that
"this stage does not touch the kernel" is a single equation. -/
def kfields (a : axis_opts) : AKind × Nat × Nat × List Int :=
  (a.mode, a.kernel_sz, a.kernel_ofs, a.flt_kernel)

theorem dzStep_kfields (a : axis_opts) (v : Int) :
    kfields (dzStep a v).1 = kfields a := by
  unfold dzStep
  split_ifs <;> rfl

theorem edgeStep_kfields (a : axis_opts) (v : Int) :
    kfields (edgeStep a v).1 = kfields a := by
  unfold edgeStep
  split_ifs <;> rfl

theorem conditionStep_kfields (a : axis_opts) (v : Int) :
    kfields (conditionStep a v).1 = kfields a := by
  unfold conditionStep
  rcases h : dzStep a (wrap16 v) with ⟨a1, o⟩
  have h1 : kfields a1 = kfields a := by
    have h2 := dzStep_kfields a (wrap16 v)
    rw [h] at h2
    exact h2
  cases o with
  | none => simpa using h1
  | some s1 =>
    simp only
    rw [edgeStep_kfields]
    exact h1

theorem kfields_mode {a b : axis_opts} (h : kfields a = kfields b) :
    a.mode = b.mode := congrArg (fun p => p.1) h

theorem kfields_sz {a b : axis_opts} (h : kfields a = kfields b) :
    a.kernel_sz = b.kernel_sz := congrArg (fun p => p.2.1) h

theorem kfields_ofs {a b : axis_opts} (h : kfields a = kfields b) :
    a.kernel_ofs = b.kernel_ofs := congrArg (fun p => p.2.2.1) h

theorem kfields_kernel {a b : axis_opts} (h : kfields a = kfields b) :
    a.flt_kernel = b.flt_kernel := congrArg (fun p => p.2.2.2) h

theorem analogfilter_set_spec (a : axis_opts) (l u d b : Int) (k : AKind) :
    (analogfilter_set a l u d b k).kernel_ofs = 0 ∧
    1 ≤ (analogfilter_set a l u d b k).kernel_sz ∧
    (analogfilter_set a l u d b k).kernel_sz ≤ 64 := by
  unfold analogfilter_set set_analogstate
  refine ⟨rfl, ?_, ?_⟩ <;> dsimp only <;> split_ifs <;> omega

theorem kernelStep_sz (a : axis_opts) (v : Int) :
    ((kernelStep a v).1).kernel_sz = a.kernel_sz := by
  unfold kernelStep
  dsimp only
  split_ifs <;> rfl

theorem kernelStep_inv (a : axis_opts) (v : Int) (h : a.kernel_ofs < a.kernel_sz) :
    ((kernelStep a v).1).kernel_ofs < ((kernelStep a v).1).kernel_sz := by
  unfold kernelStep
  dsimp only
  split_ifs with h1
  · simpa using h1
  all_goals dsimp only
  all_goals omega

theorem process_axis_kernel_sz (a : axis_opts) (v : Int) :
    ((process_axis a v).1).kernel_sz = a.kernel_sz := by
  unfold process_axis
  split_ifs with h1 h2
  · rfl
  · rfl
  · rcases hc : conditionStep a v with ⟨a1, o⟩
    have hk : kfields a1 = kfields a := by
      have h3 := conditionStep_kfields a v
      rw [hc] at h3
      exact h3
    cases o with
    | none => exact kfields_sz hk
    | some s2 =>
      simp only
      rw [kernelStep_sz]
      exact kfields_sz hk

theorem process_axis_kernel_inv (a : axis_opts) (v : Int)
    (h : a.kernel_ofs < a.kernel_sz) :
    ((process_axis a v).1).kernel_ofs < ((process_axis a v).1).kernel_sz := by
  unfold process_axis
  split_ifs with h1 h2
  · exact h
  · exact h
  · rcases hc : conditionStep a v with ⟨a1, o⟩
    have hk : kfields a1 = kfields a := by
      have h3 := conditionStep_kfields a v
      rw [hc] at h3
      exact h3
    cases o with
    | none =>
      simpa [kfields_ofs hk, kfields_sz hk] using h
    | some s2 =>
      simp only
      exact kernelStep_inv a1 s2 (by rw [kfields_ofs hk, kfields_sz hk]; exact h)

theorem applyOps_inv (ops : List FilterOp) (a : axis_opts)
    (h : a.kernel_ofs < a.kernel_sz) :
    (applyOps a ops).kernel_ofs < (applyOps a ops).kernel_sz := by
  induction ops generalizing a with
  | nil => exact h
  | cons op ops ih =>
    cases op with
    | config l u d b k =>
      refine ih (analogfilter_set a l u d b k) ?_
      have h1 := analogfilter_set_spec a l u d b k
      omega
    | sample v =>
      exact ih (process_axis a v).1 (process_axis_kernel_inv a v h)

/-- C9 (amended): for an axis filter the strict invariant
`kernel_ofs < kernel_sz` holds after any operation sequence that contains at
least one configuration call (and from then on is preserved by every further
configuration or sampling call); every configuration call clamps the kernel
size into `[1, 64]` and resets the write offset to 0.  It does *not* hold at
creation time, where the kernel size is left at 0 (see the counterexample). -/
theorem claim_c9 (a : axis_opts) (pre post : List FilterOp)
    (l u d b : Int) (k : AKind) :
    (analogfilter_set a l u d b k).kernel_ofs = 0 ∧
    1 ≤ (analogfilter_set a l u d b k).kernel_sz ∧
    (analogfilter_set a l u d b k).kernel_sz ≤ 64 ∧
    (applyOps a (pre ++ FilterOp.config l u d b k :: post)).kernel_ofs <
      (applyOps a (pre ++ FilterOp.config l u d b k :: post)).kernel_sz := by
  obtain ⟨h0, h1, h2⟩ := analogfilter_set_spec a l u d b k
  refine ⟨h0, h1, h2, ?_⟩
  unfold applyOps
  rw [List.foldl_append, List.foldl_cons]
  have h3 := analogfilter_set_spec (List.foldl applyOp a pre) l u d b k
  exact applyOps_inv post _ (by simp only [applyOp]; omega)

/-- C9 (counterexample): at creation time (`map_axes`, classification of a
game device) an axis filter has `kernel_sz = 0` and `kernel_ofs = 0`, so the
claimed invariant `kernel_ofs < kernel_sz` is already false before any call. -/
theorem claim_c9_counterexample :
    (map_axes_axis none).mode = AKind.AVG ∧
    ¬ ((map_axes_axis none).kernel_ofs < (map_axes_axis none).kernel_sz) := by
  decide

/-- C2 (amended): in a kernel mode (`AVG`/`ALAST`), a sample entering the
deadzone is replaced by 0, the in-zone flag is set, and the zeroed sample is
fed through the edge-clamp and kernel stages exactly like any accepted
sample of value 0: when 0 lies inside the clamp band the whole call reduces
to the kernel stage on 0, so an output appears at the entry sample if and
only if it fills the kernel — the zeroed sample itself for kernel size at
most 1, and for a larger Average kernel the truncated mean of the completed
batch, which need not be 0.  Every further in-zone sample is rejected with
the state untouched, and a sample at or above the deadzone clears the flag
and is processed as the real value. -/
theorem claim_c2_amended (a : axis_opts) (s : Int)
    (hmode : a.mode = AKind.AVG ∨ a.mode = AKind.ALAST) :
    (a.indzone = false → |wrap16 s| < a.deadzone →
      conditionStep a s = edgeStep {a with indzone := true} 0 ∧
      (a.lower ≤ 0 → 0 ≤ a.upper →
        process_axis a s =
          kernelStep {a with indzone := true, inlzone := false, inuzone := false} 0 ∧
        ((process_axis a s).2 = none ↔ a.kernel_ofs + 1 < a.kernel_sz) ∧
        (a.kernel_sz ≤ 1 → (process_axis a s).2 = some 0) ∧
        (a.mode = AKind.AVG → 1 < a.kernel_sz → a.kernel_sz ≤ a.kernel_ofs + 1 →
          (process_axis a s).2 = some (
            if ((a.flt_kernel.set a.kernel_ofs 0).take a.kernel_sz).sum ≠ 0 then
              wrap16 (Int.tdiv ((a.flt_kernel.set a.kernel_ofs 0).take a.kernel_sz).sum
                (a.kernel_sz : Int))
            else 0)))) ∧
    (a.indzone = true → |wrap16 s| < a.deadzone → process_axis a s = (a, none)) ∧
    (a.deadzone ≤ |wrap16 s| →
      process_axis a s = process_axis {a with indzone := false} s) := by
  have hn : ¬ a.mode = AKind.NONE := by rcases hmode with h | h <;> simp [h]
  have hp : ¬ a.mode = AKind.PASS := by rcases hmode with h | h <;> simp [h]
  obtain ⟨mo, om, lo, up, dz, il, iu, id, ks, ko, fk⟩ := a
  have hn' : ¬ mo = AKind.NONE := hn
  have hp' : ¬ mo = AKind.PASS := hp
  refine ⟨?_, ?_, ?_⟩
  · intro hdz hin
    have hdz' : id = false := hdz
    have hin' : |wrap16 s| < dz := hin
    subst hdz'
    constructor
    · simp [conditionStep, dzStep, hin']
    · intro hlo hup
      have h1 : ¬ ((0:Int) < lo) := not_lt.mpr hlo
      have h2 : ¬ (up < (0:Int)) := not_lt.mpr hup
      have hmaster : process_axis
          ⟨mo, om, lo, up, dz, il, iu, false, ks, ko, fk⟩ s =
          kernelStep ⟨mo, om, lo, up, dz, false, false, true, ks, ko, fk⟩ 0 := by
        simp [process_axis, conditionStep, dzStep, edgeStep, hn', hp', hin', h1, h2]
      refine ⟨hmaster, ?_, ?_, ?_⟩
      · rw [hmaster]
        unfold kernelStep
        by_cases hfull : ko + 1 < ks
        · simp [hfull]
        · simp [hfull]
      · intro hsz
        have hsz' : ks ≤ 1 := hsz
        rw [hmaster]
        unfold kernelStep
        have hfull : ¬ (ko + 1 < ks) := by omega
        have h1lt : ¬ (1 < ks) := by omega
        simp [hfull, h1lt]
      · intro hmo hsz hfill
        have hmo' : mo = AKind.AVG := hmo
        have hsz' : 1 < ks := hsz
        have hfill' : ks ≤ ko + 1 := hfill
        subst hmo'
        rw [hmaster]
        unfold kernelStep
        have hfull : ¬ (ko + 1 < ks) := by omega
        simp [hfull, hsz']
  · intro hdz hin
    have hdz' : id = true := hdz
    have hin' : |wrap16 s| < dz := hin
    subst hdz'
    simp [process_axis, conditionStep, dzStep, hn', hp', hin']
  · intro hout
    have hout' : ¬ (|wrap16 s| < dz) := not_lt.mpr hout
    simp [process_axis, conditionStep, dzStep, hn', hp', hout']

/-- C2 (witness): for the kernel-size-2 Average filter `cAxis2` holding one
pending accepted sample 50, the deadzone-entry sample 5 fills the kernel and
emits the batch mean 25 — not 0 — while setting the in-zone flag. -/
theorem claim_c2_witness :
    (process_axis (process_axis cAxis2 50).1 5).2 = some 25 ∧
    (process_axis (process_axis cAxis2 50).1 5).1.indzone = true := by
  obtain ⟨hcond, hband⟩ :=
    (claim_c2_amended (process_axis cAxis2 50).1 5 (Or.inl (by decide))).1
      (by decide) (by decide)
  obtain ⟨hmaster, hiff, hsz1, havg⟩ := hband (by decide) (by decide)
  refine ⟨?_, ?_⟩
  · rw [havg (by decide) (by decide) (by decide)]
    decide
  · rw [hmaster]
    decide

/-- C2 (counterexample): for the Average filter `cAxis2` with kernel size 2
and deadzone 10, the very first in-zone sample (value 5, filter not in the
deadzone) produces *no* output at all — the zeroed sample only enters the
kernel — contradicting the claim that the filter emits the output value 0 at
the first in-zone sample. -/
theorem claim_c2_counterexample :
    cAxis2.mode = AKind.AVG ∧ cAxis2.indzone = false ∧
    |wrap16 5| < cAxis2.deadzone ∧ (process_axis cAxis2 5).2 = none := by
  decide
theorem wrap16_range (z : Int) : -32768 ≤ wrap16 z ∧ wrap16 z ≤ 32767 := by
  unfold wrap16
  omega

theorem wrap16_eq_self (z : Int) (h1 : -32768 ≤ z) (h2 : z ≤ 32767) : wrap16 z = z := by
  unfold wrap16
  omega

theorem take_set_eq (l : List Int) (n : Nat) (v : Int) :
    (l.set n v).take n = l.take n := by
  induction l generalizing n with
  | nil => simp
  | cons x xs ih =>
    cases n with
    | zero => simp
    | succ m => simp [List.set_cons_succ, List.take_succ_cons, ih]

theorem take_succ_set (l : List Int) (n : Nat) (v : Int) (h : n < l.length) :
    (l.set n v).take (n + 1) = l.take n ++ [v] := by
  induction l generalizing n with
  | nil => simp at h
  | cons x xs ih =>
    cases n with
    | zero => simp
    | succ m =>
      simp only [List.set_cons_succ, List.take_succ_cons, List.cons_append]
      rw [ih m (by simpa using h)]

theorem sum_bounds (l : List Int) (h : ∀ v ∈ l, -32768 ≤ v ∧ v ≤ 32767) :
    -32768 * (l.length : Int) ≤ l.sum ∧ l.sum ≤ 32767 * (l.length : Int) := by
  induction l with
  | nil => simp
  | cons x xs ih =>
    have hx := h x (by simp)
    have hxs := ih (fun v hv => h v (by simp [hv]))
    simp only [List.sum_cons, List.length_cons]
    push_cast
    constructor <;> nlinarith [hx.1, hx.2, hxs.1, hxs.2]

theorem tdiv_bound (t : Int) (K : Nat) (hK : 1 ≤ K)
    (h1 : -32768 * (K : Int) ≤ t) (h2 : t ≤ 32767 * (K : Int)) :
    -32768 ≤ Int.tdiv t (K : Int) ∧ Int.tdiv t (K : Int) ≤ 32767 := by
  have hKpos : (0 : Int) < (K : Int) := by exact_mod_cast hK
  rcases le_or_lt 0 t with ht | ht
  · rw [Int.tdiv_eq_ediv ht (le_of_lt hKpos)]
    constructor
    · have := Int.ediv_nonneg ht (le_of_lt hKpos)
      omega
    · have h3 : t / (K : Int) ≤ (32767 * (K : Int)) / (K : Int) :=
        Int.ediv_le_ediv hKpos h2
      rwa [Int.mul_ediv_cancel 32767 (by omega)] at h3
  · have hneg : Int.tdiv t (K : Int) = -(Int.tdiv (-t) (K : Int)) := by
      rw [← Int.neg_tdiv, Int.neg_neg]
    have hnn : (0 : Int) ≤ -t := by omega
    rw [hneg, Int.tdiv_eq_ediv hnn (le_of_lt hKpos)]
    constructor
    · have h3 : (-t) / (K : Int) ≤ (32768 * (K : Int)) / (K : Int) :=
        Int.ediv_le_ediv hKpos (by omega)
      rw [Int.mul_ediv_cancel 32768 (by omega)] at h3
      omega
    · have := Int.ediv_nonneg hnn (le_of_lt hKpos)
      omega
theorem dzStep_some (a : axis_opts) (s : Int) (a1 : axis_opts) (v : Int)
    (h : dzStep a s = (a1, some v)) : v = 0 ∨ v = s := by
  unfold dzStep at h
  split_ifs at h <;> simp [Prod.mk.injEq] at h
  · exact Or.inl h.2.symm
  · exact Or.inr h.2.symm

theorem edgeStep_some (a : axis_opts) (s : Int) (a1 : axis_opts) (v : Int)
    (h : edgeStep a s = (a1, some v)) :
    v = wrap16 a.lower ∨ v = wrap16 a.upper ∨ v = s := by
  unfold edgeStep at h
  split_ifs at h <;> simp [Prod.mk.injEq] at h
  · exact Or.inl h.2.symm
  · exact Or.inr (Or.inl h.2.symm)
  · exact Or.inr (Or.inr h.2.symm)

theorem conditionStep_range (a : axis_opts) (s : Int) (a1 : axis_opts) (v : Int)
    (h : conditionStep a s = (a1, some v)) : -32768 ≤ v ∧ v ≤ 32767 := by
  unfold conditionStep at h
  rcases hdz : dzStep a (wrap16 s) with ⟨a2, o⟩
  rw [hdz] at h
  cases o with
  | none => simp at h
  | some s1 =>
    simp only at h
    rcases edgeStep_some a2 s1 a1 v h with h1 | h1 | h1
    · rw [h1]; exact wrap16_range _
    · rw [h1]; exact wrap16_range _
    · rcases dzStep_some a (wrap16 s) a2 s1 hdz with h2 | h2
      · rw [h1, h2]; omega
      · rw [h1, h2]; exact wrap16_range _

theorem process_axis_eq_steps (a : axis_opts) (s : Int)
    (hn : ¬ a.mode = AKind.NONE) (hp : ¬ a.mode = AKind.PASS) :
    process_axis a s =
      (match conditionStep a s with
       | (a1, none) => (a1, none)
       | (a1, some v) => kernelStep a1 v) := by
  unfold process_axis
  rw [if_neg hn, if_neg hp]

theorem kernelStep_not_full (a : axis_opts) (v : Int)
    (h : a.kernel_ofs + 1 < a.kernel_sz) :
    kernelStep a v =
      ({a with flt_kernel := a.flt_kernel.set a.kernel_ofs v,
               kernel_ofs := a.kernel_ofs + 1}, none) := by
  unfold kernelStep
  dsimp only
  rw [if_pos h]

theorem kernelStep_full_avg (a : axis_opts) (v : Int)
    (hfull : a.kernel_ofs + 1 = a.kernel_sz) (hmode : ¬ a.mode = AKind.ALAST) :
    kernelStep a v =
      ({a with flt_kernel := a.flt_kernel.set a.kernel_ofs v, kernel_ofs := 0},
       some (if 1 < a.kernel_sz then
               (if ((a.flt_kernel.set a.kernel_ofs v).take a.kernel_sz).sum ≠ 0
                then wrap16 (Int.tdiv
                  ((a.flt_kernel.set a.kernel_ofs v).take a.kernel_sz).sum
                  (a.kernel_sz : Int))
                else 0)
             else v)) := by
  unfold kernelStep
  dsimp only
  rw [if_neg (by omega)]
  simp [hmode]

theorem runFilter_cons_none (a a1 : axis_opts) (s : Int) (ss : List Int)
    (h : process_axis a s = (a1, none)) :
    runFilter a (s :: ss) = runFilter a1 ss := by
  simp [runFilter, h]

theorem runFilter_cons_some (a a1 : axis_opts) (s v : Int) (ss : List Int)
    (h : process_axis a s = (a1, some v)) :
    runFilter a (s :: ss) = ((runFilter a1 ss).1, v :: (runFilter a1 ss).2) := by
  simp [runFilter, h]

theorem acceptedVals_cons_none (a : axis_opts) (s : Int) (ss : List Int)
    (h : (conditionStep a s).2 = none) :
    acceptedVals a (s :: ss) = acceptedVals (process_axis a s).1 ss := by
  simp [acceptedVals, h]

theorem acceptedVals_cons_some (a : axis_opts) (s v : Int) (ss : List Int)
    (h : (conditionStep a s).2 = some v) :
    acceptedVals a (s :: ss) = v :: acceptedVals (process_axis a s).1 ss := by
  simp [acceptedVals, h]
theorem blocksOut_cons_ne (K : Nat) (acc : List Int) (v : Int) (vs : List Int)
    (h : acc.length + 1 ≠ K) :
    blocksOut K acc (v :: vs) = blocksOut K (acc ++ [v]) vs := by
  simp [blocksOut, h]

theorem blocksOut_cons_eq (K : Nat) (acc : List Int) (v : Int) (vs : List Int)
    (h : acc.length + 1 = K) :
    blocksOut K acc (v :: vs) = truncAvg (acc ++ [v]) K :: blocksOut K [] vs := by
  simp [blocksOut, h]

theorem runFilter_avg (ss : List Int) : ∀ (a : axis_opts) (acc : List Int),
    a.mode = AKind.AVG →
    a.kernel_sz ≤ 64 →
    a.flt_kernel.length = 64 →
    a.kernel_ofs = acc.length →
    acc.length < a.kernel_sz →
    a.flt_kernel.take acc.length = acc →
    (∀ v ∈ acc, -32768 ≤ v ∧ v ≤ 32767) →
    (runFilter a ss).2 = blocksOut a.kernel_sz acc (acceptedVals a ss) := by
  induction ss with
  | nil =>
    intro a acc _ _ _ _ _ _ _
    simp [runFilter, acceptedVals, blocksOut]
  | cons s ss ih =>
    intro a acc hm hsz64 hklen hofs hlt htake hrange
    have hn : ¬ a.mode = AKind.NONE := by rw [hm]; simp
    have hp : ¬ a.mode = AKind.PASS := by rw [hm]; simp
    rcases hc : conditionStep a s with ⟨a1, o⟩
    have hk : kfields a1 = kfields a := by
      have h3 := conditionStep_kfields a s
      rw [hc] at h3
      exact h3
    have hm1 : a1.mode = AKind.AVG := by rw [kfields_mode hk, hm]
    have hsz1 : a1.kernel_sz = a.kernel_sz := kfields_sz hk
    have hofs1 : a1.kernel_ofs = a.kernel_ofs := kfields_ofs hk
    have hker1 : a1.flt_kernel = a.flt_kernel := kfields_kernel hk
    have hpe := process_axis_eq_steps a s hn hp
    rw [hc] at hpe
    cases o with
    | none =>
      rw [runFilter_cons_none a a1 s ss hpe,
        acceptedVals_cons_none a s ss (by rw [hc]), hpe]
      rw [← hsz1]
      exact ih a1 acc hm1 (by rw [hsz1]; exact hsz64) (by rw [hker1]; exact hklen)
        (by rw [hofs1, hofs]) (by rw [hsz1]; exact hlt)
        (by rw [hker1]; exact htake) hrange
    | some v =>
      have hvr := conditionStep_range a s a1 v hc
      have haccv := acceptedVals_cons_some a s v ss (by rw [hc])
      simp only at hpe
      have hmem : ∀ w ∈ acc ++ [v], -32768 ≤ w ∧ w ≤ 32767 := by
        intro w hw
        rcases List.mem_append.mp hw with hw | hw
        · exact hrange w hw
        · simp at hw
          rw [hw]
          exact hvr
      rcases Nat.lt_or_ge (acc.length + 1) a.kernel_sz with hfull | hfull
      · -- kernel not full yet: the sample only enters the kernel
        rw [kernelStep_not_full a1 v (by rw [hofs1, hofs, hsz1]; exact hfull)] at hpe
        rw [runFilter_cons_none a _ s ss hpe, haccv, hpe]
        rw [blocksOut_cons_ne _ _ _ _ (by omega)]
        rw [← hsz1]
        exact ih _ (acc ++ [v])
          hm1
          (by simpa [hsz1] using hsz64)
          (by simpa [hker1] using hklen)
          (by simp [hofs1, hofs])
          (by simpa [hsz1] using hfull)
          (by
            simp only [hker1, hofs1, hofs]
            rw [show (acc ++ [v]).length = acc.length + 1 by simp]
            rw [take_succ_set a.flt_kernel acc.length v (by omega)]
            rw [htake])
          hmem
      · -- kernel full: one output, the truncated mean of the batch
        have heq : acc.length + 1 = a.kernel_sz := by omega
        rw [kernelStep_full_avg a1 v (by rw [hofs1, hofs, hsz1]; exact heq)
          (by rw [hm1]; simp)] at hpe
        rw [runFilter_cons_some a _ s _ ss hpe, haccv, hpe]
        rw [blocksOut_cons_eq _ _ _ _ heq]
        have htk : (a1.flt_kernel.set a1.kernel_ofs v).take a1.kernel_sz = acc ++ [v] := by
          rw [hker1, hofs1, hofs, hsz1, ← heq]
          rw [take_succ_set a.flt_kernel acc.length v (by omega)]
          rw [htake]
        have hhead : (if 1 < a1.kernel_sz then
               (if ((a1.flt_kernel.set a1.kernel_ofs v).take a1.kernel_sz).sum ≠ 0
                then wrap16 (Int.tdiv
                  ((a1.flt_kernel.set a1.kernel_ofs v).take a1.kernel_sz).sum
                  (a1.kernel_sz : Int))
                else 0)
             else v) = truncAvg (acc ++ [v]) a.kernel_sz := by
          rw [htk, hsz1]
          rcases Nat.lt_or_ge 1 a.kernel_sz with h1K | h1K
          · rw [if_pos h1K]
            rcases eq_or_ne (acc ++ [v]).sum 0 with hz | hz
            · rw [if_neg (by simp [hz])]
              unfold truncAvg
              rw [hz, Int.zero_tdiv]
            · rw [if_pos hz]
              unfold truncAvg
              have hlen : ((acc ++ [v]).length : Int) = (a.kernel_sz : Int) := by
                exact_mod_cast by simpa using heq
              have hsb := sum_bounds (acc ++ [v]) hmem
              rw [hlen] at hsb
              have hb := tdiv_bound (acc ++ [v]).sum a.kernel_sz (by omega) hsb.1 hsb.2
              exact wrap16_eq_self _ hb.1 hb.2
          · rw [if_neg (by omega)]
            have hK1 : a.kernel_sz = 1 := by omega
            have hacc0 : acc = [] := by
              have h4 : acc.length = 0 := by omega
              exact List.length_eq_zero.mp h4
            rw [hacc0]
            unfold truncAvg
            simp [hK1]
        rw [hhead]
        rw [← hsz1]
        exact congrArg (List.cons _)
          (ih _ []
            hm1
            (by simpa [hsz1] using hsz64)
            (by simpa [hker1] using hklen)
            (by simp)
            (by simp [hsz1]; omega)
            (by simp)
            (by simp))

theorem blocksOut_length (K : Nat) (hK : 0 < K) :
    ∀ (vs acc : List Int), acc.length < K →
    (blocksOut K acc vs).length = (acc.length + vs.length) / K := by
  intro vs
  induction vs with
  | nil =>
    intro acc hacc
    simp [blocksOut, Nat.div_eq_of_lt hacc]
  | cons v vs ih =>
    intro acc hacc
    rcases eq_or_ne (acc.length + 1) K with h | h
    · rw [blocksOut_cons_eq _ _ _ _ h]
      simp only [List.length_cons]
      rw [ih [] (by simpa using hK)]
      rw [show acc.length + (vs.length + 1) = vs.length + K from by omega]
      rw [Nat.add_div_right _ hK]
      simp
    · rw [blocksOut_cons_ne _ _ _ _ h]
      rw [ih (acc ++ [v]) (by simp; omega)]
      congr 1
      simp
      omega

/-- C1: for every axis filter in Average mode whose kernel was configured
(size in `[1,64]`, write offset 0) and every raw sample sequence, the
emitted outputs are exactly one per completed batch of `kernel_sz` accepted
(in-band) samples — `⌊accepted/K⌋` outputs in total — and each output is the
toward-zero-truncated integer mean of that batch of accepted samples (the
code's zero-sum special case coincides with the truncated mean, which is 0
for a zero-sum batch). -/
theorem claim_c1 (a : axis_opts) (ss : List Int)
    (hm : a.mode = AKind.AVG) (h1 : 1 ≤ a.kernel_sz) (h64 : a.kernel_sz ≤ 64)
    (hlen : a.flt_kernel.length = 64) (hofs : a.kernel_ofs = 0) :
    (runFilter a ss).2 = blocksOut a.kernel_sz [] (acceptedVals a ss) ∧
    ((runFilter a ss).2).length = (acceptedVals a ss).length / a.kernel_sz := by
  have h := runFilter_avg ss a [] hm h64 hlen (by simpa using hofs) (by simp; omega)
    (by simp) (by simp)
  refine ⟨h, ?_⟩
  rw [h, blocksOut_length a.kernel_sz (by omega) _ [] (by simpa using h1)]
  simp

/-- C1 (witness): the configured kernel-size-2 Average filter `cW1axis`
on the samples 10, 21, 5 — one output, the truncated mean 15 of the first
two accepted samples. -/
theorem claim_c1_witness :
    ((runFilter cW1axis [10, 21, 5]).2 =
      blocksOut cW1axis.kernel_sz [] (acceptedVals cW1axis [10, 21, 5]) ∧
    ((runFilter cW1axis [10, 21, 5]).2).length =
      (acceptedVals cW1axis [10, 21, 5]).length / cW1axis.kernel_sz) ∧
    (runFilter cW1axis [10, 21, 5]).2 = [15] :=
  ⟨claim_c1 cW1axis [10, 21, 5] (by decide) (by decide) (by decide) (by decide)
    (by decide), by decide⟩
theorem map_axes_type (b : List Bool) (r : Nat → Option (Int × Int)) (n : arcan_devnode) :
    (map_axes b r n).type = n.type := by
  unfold map_axes
  split_ifs <;> rfl

theorem map_axes_bc (b : List Bool) (r : Nat → Option (Int × Int)) (n : arcan_devnode) :
    (map_axes b r n).button_count = n.button_count := by
  unfold map_axes
  split_ifs <;> rfl

theorem map_axes_flt0 (b : List Bool) (r : Nat → Option (Int × Int)) (n : arcan_devnode) :
    (map_axes b r n).cursor_flt0 = n.cursor_flt0 := by
  unfold map_axes
  split_ifs <;> rfl

theorem map_axes_flt1 (b : List Bool) (r : Nat → Option (Int × Int)) (n : arcan_devnode) :
    (map_axes b r n).cursor_flt1 = n.cursor_flt1 := by
  unfold map_axes
  split_ifs <;> rfl

set_option maxHeartbeats 2000000 in
/-- C4: for a discovered device without a label-override entry, the
classification decision of `got_device` — relative X and Y plus a
mouse-button signature yields a Mouse with both cursor filters forced to
pass-through; otherwise, no mouse and no joystick button signature together
with a counted button total above 84 yields a Keyboard; otherwise the device
stays a GameController. -/
theorem claim_c4 (node : arcan_devnode) (evbits keybits relbits absbits : List Bool)
    (ranges : Nat → Option (Int × Int)) :
    (((evbits.getD EV_REL false && check_mouse_axis relbits) &&
      (evbits.getD EV_KEY false && (button_count keybits).2.1)) = true →
     (got_device_classify node evbits keybits relbits absbits ranges).type =
       devnode_type.DEVNODE_MOUSE ∧
     (got_device_classify node evbits keybits relbits absbits ranges).cursor_flt0.mode =
       AKind.PASS ∧
     (got_device_classify node evbits keybits relbits absbits ranges).cursor_flt1.mode =
       AKind.PASS) ∧
    (((evbits.getD EV_REL false && check_mouse_axis relbits) &&
      (evbits.getD EV_KEY false && (button_count keybits).2.1)) = false →
     (evbits.getD EV_KEY false && (button_count keybits).2.1) = false →
     (evbits.getD EV_KEY false && (button_count keybits).2.2) = false →
     (if evbits.getD EV_KEY false then (button_count keybits).1 else node.button_count) > 84 →
     (got_device_classify node evbits keybits relbits absbits ranges).type =
       devnode_type.DEVNODE_KEYBOARD) ∧
    (((evbits.getD EV_REL false && check_mouse_axis relbits) &&
      (evbits.getD EV_KEY false && (button_count keybits).2.1)) = false →
     ((evbits.getD EV_KEY false && (button_count keybits).2.1) = true ∨
      (evbits.getD EV_KEY false && (button_count keybits).2.2) = true ∨
      (if evbits.getD EV_KEY false then (button_count keybits).1 else node.button_count) ≤ 84) →
     (got_device_classify node evbits keybits relbits absbits ranges).type =
       devnode_type.DEVNODE_GAME) := by
  simp only [got_device_classify]
  generalize hbc : button_count keybits = bc
  generalize hcm : check_mouse_axis relbits = cma
  obtain ⟨cnt, mb, jb⟩ := bc
  refine ⟨fun h1 => ?_, fun h1 h2 h3 h4 => ?_, fun h1 h2 => ?_⟩
  · cases hek : evbits.getD EV_KEY false <;>
    cases her : evbits.getD EV_REL false <;>
    cases hea : evbits.getD EV_ABS false <;>
    cases mb <;> cases cma <;>
    simp_all [map_axes_type, map_axes_bc, map_axes_flt0, map_axes_flt1]
  · cases hek : evbits.getD EV_KEY false <;>
    cases her : evbits.getD EV_REL false <;>
    cases hea : evbits.getD EV_ABS false <;>
    cases mb <;> cases jb <;> cases cma <;>
    simp_all [map_axes_type, map_axes_bc, map_axes_flt0, map_axes_flt1]
  · rcases h2 with h2 | h2 | h2 <;>
    cases hek : evbits.getD EV_KEY false <;>
    cases her : evbits.getD EV_REL false <;>
    cases hea : evbits.getD EV_ABS false <;>
    cases mb <;> cases jb <;> cases cma <;>
    simp_all [map_axes_type, map_axes_bc, map_axes_flt0, map_axes_flt1] <;>
    rw [if_neg (by omega)] <;>
    simp [map_axes_type]

/-- C4 (witness): a device advertising only the EV_KEY category with the 90
lowest key codes (no mouse or joystick buttons, more than 84 keys) is
classified as a Keyboard. -/
theorem claim_c4_witness :
    (got_device_classify emptyNode [false, true] wKeybits [] [] (fun _ => none)).type =
      devnode_type.DEVNODE_KEYBOARD :=
  (claim_c4 emptyNode [false, true] wKeybits [] [] (fun _ => none)).2.1
    (by decide) (by decide) (by decide) (by decide)
/-- C5 (amended): from a centered hat component, a raw transition to +1
followed by a return to 0 emits exactly two digital events — the activation
and then the deactivation of the positive sub-id, with no event for the
negative sub-id.  However, releases happen only on return to center: any
nonzero transition emits exactly one activation for its own direction and
leaves the opposite direction's cell untouched, so a direct −1 → +1
transition leaves both directions marked active (see the counterexample). -/
theorem claim_c5_amended :
    (∀ (hats : List Int) (i : Nat), hats.length = 16 → i < 8 →
      hats.getD (i * 2) 0 = 0 → hats.getD (i * 2 + 1) 0 = 0 →
      decode_hat hats i 1 =
        (hats.set (i * 2 + 1) 1, [{subid := 64 + i * 2 + 1, active := true}]) ∧
      decode_hat (hats.set (i * 2 + 1) 1) i 0 =
        (hats.set (i * 2 + 1) 0, [{subid := 64 + i * 2 + 1, active := false}])) ∧
    (∀ (hats : List Int) (i : Nat) (val : Int), 0 < val →
      decode_hat hats i val =
        (hats.set (i * 2 + 1) 1, [{subid := 64 + i * 2 + 1, active := true}])) ∧
    (∀ (hats : List Int) (i : Nat) (val : Int), val < 0 →
      decode_hat hats i val =
        (hats.set (i * 2) (-1), [{subid := 64 + i * 2, active := true}])) := by
  have hpos : ∀ (hats : List Int) (i : Nat) (val : Int), 0 < val →
      decode_hat hats i val =
        (hats.set (i * 2 + 1) 1, [{subid := 64 + i * 2 + 1, active := true}]) := by
    intro hats i val hv
    unfold decode_hat
    rw [if_neg (by omega), if_pos (by omega)]
  refine ⟨?_, hpos, ?_⟩
  · intro hats i hlen hi h0 h1
    refine ⟨hpos hats i 1 (by omega), ?_⟩
    unfold decode_hat
    rw [if_neg (by omega), if_neg (by omega)]
    rw [List.getD_eq_getElem?_getD] at h0
    have hg2 : (hats.set (i * 2 + 1) 1)[i * 2 + 1]?.getD 0 = (1 : Int) := by
      rw [List.getElem?_set_self (by omega)]
      rfl
    simp [h0, hg2, List.set_set]
  · intro hats i val hv
    unfold decode_hat
    rw [if_pos (by omega)]

/-- C5 (witness): hat 0 of a fully centered hat state moving to +1 — exactly
one activation of the positive sub-id 65 with the negative cell untouched. -/
theorem claim_c5_witness :
    decode_hat hats0 0 1 =
      (hats0.set 1 1, [{subid := 65, active := true}]) :=
  claim_c5_amended.2.1 hats0 0 1 (by decide)

/-- C5 (counterexample): from the centered state, the transition sequence
−1 then +1 on hat component 0 ends with *both* directions active (cells −1
and 1) although only the negative one was active before the second
transition, and the second transition emitted only the positive activation —
no release of the negative sub-id 64 — refuting the claim that no single hat
transition makes both directions simultaneously active unless both already
were. -/
theorem claim_c5_counterexample :
    (decode_hat hats0 0 (-1)).1.getD 0 0 = -1 ∧
    (decode_hat hats0 0 (-1)).1.getD 1 0 = 0 ∧
    (decode_hat (decode_hat hats0 0 (-1)).1 0 1).2 = [{subid := 65, active := true}] ∧
    (decode_hat (decode_hat hats0 0 (-1)).1 0 1).1.getD 0 0 = -1 ∧
    (decode_hat (decode_hat hats0 0 (-1)).1 0 1).1.getD 1 0 = 1 := by
  decide
theorem defhandler_kbd_append (klutMod : Nat → Option Nat) (lkc : Nat → Nat)
    (lkch : Nat → Nat → Nat) (statev : Nat) (evs1 evs2 : List input_event) :
    defhandler_kbd klutMod lkc lkch statev (evs1 ++ evs2) =
      ((defhandler_kbd klutMod lkc lkch
          (defhandler_kbd klutMod lkc lkch statev evs1).1 evs2).1,
       (defhandler_kbd klutMod lkc lkch statev evs1).2 ++
         (defhandler_kbd klutMod lkc lkch
           (defhandler_kbd klutMod lkc lkch statev evs1).1 evs2).2) := by
  induction evs1 generalizing statev with
  | nil => simp [defhandler_kbd]
  | cons e es ih => simp [defhandler_kbd, ih]

/-- C6: the keyboard decoder emits, for an `EV_KEY` press record (driver
value 1), exactly one translated event with `active = true` whose modifier
mask is the mask *after* applying the press; for the matching release record
(value 0) exactly one event with `active = false`; and for a raw key-repeat
record (value 2) exactly two events for that code — a release followed by a
press; batches decompose record by record, threading the modifier state. -/
theorem claim_c6 (klutMod : Nat → Option Nat) (lkc : Nat → Nat)
    (lkch : Nat → Nat → Nat) (statev code : Nat) (evs1 evs2 : List input_event) :
    (defhandler_kbd klutMod lkc lkch statev [{type := EV_KEY, code := code, value := 1}] =
      (update_state klutMod code true statev,
       [{scancode := code, keysym := lkc code,
         modifiers := update_state klutMod code true statev,
         subid := lkch code (update_state klutMod code true statev),
         active := true}])) ∧
    (defhandler_kbd klutMod lkc lkch statev [{type := EV_KEY, code := code, value := 0}] =
      (update_state klutMod code false statev,
       [{scancode := code, keysym := lkc code,
         modifiers := update_state klutMod code false statev,
         subid := lkch code (update_state klutMod code false statev),
         active := false}])) ∧
    (defhandler_kbd klutMod lkc lkch statev [{type := EV_KEY, code := code, value := 2}] =
      (update_state klutMod code true statev,
       [{scancode := code, keysym := lkc code,
         modifiers := update_state klutMod code true statev,
         subid := lkch code (update_state klutMod code true statev),
         active := false},
        {scancode := code, keysym := lkc code,
         modifiers := update_state klutMod code true statev,
         subid := lkch code (update_state klutMod code true statev),
         active := true}])) ∧
    (defhandler_kbd klutMod lkc lkch statev (evs1 ++ evs2) =
      ((defhandler_kbd klutMod lkc lkch
          (defhandler_kbd klutMod lkc lkch statev evs1).1 evs2).1,
       (defhandler_kbd klutMod lkc lkch statev evs1).2 ++
         (defhandler_kbd klutMod lkc lkch
           (defhandler_kbd klutMod lkc lkch statev evs1).1 evs2).2)) := by
  refine ⟨?_, ?_, ?_, defhandler_kbd_append klutMod lkc lkch statev evs1 evs2⟩ <;>
    simp [defhandler_kbd, defhandler_kbd_record, EV_KEY]
/-- C7 (amended): for a relative X record accepted by the axis-0 filter, the
decoder accumulates and emits the *raw* (`int16_t`-truncated) delta — the
filter's output sample is computed and then discarded; for a relative Y
record it accumulates the filter's *output* sample and also emits that
output in the delta slot (so the raw delta is only reported when the filter
passes the value through unchanged).  In both cases the position counter is
clamped at zero from below, exactly one analog event is emitted per accepted
record, and a rejected record emits nothing while still updating the filter
state. -/
theorem claim_c7_amended (node : arcan_devnode) (v : Int) :
    (∀ flt s, process_axis node.cursor_flt0 v = (flt, some s) →
      defhandler_mouse_record node {type := EV_REL, code := REL_X, value := v} =
        ({node with cursor_flt0 := flt,
                    cursor_mx := cursor_clamp ((node.cursor_mx : Int) + wrap16 v)},
         [mouse_ev.analog 0 ((cursor_clamp ((node.cursor_mx : Int) + wrap16 v)) : Int)
            (wrap16 v)])) ∧
    (∀ flt, process_axis node.cursor_flt0 v = (flt, none) →
      defhandler_mouse_record node {type := EV_REL, code := REL_X, value := v} =
        ({node with cursor_flt0 := flt}, [])) ∧
    (∀ flt s, process_axis node.cursor_flt1 v = (flt, some s) →
      defhandler_mouse_record node {type := EV_REL, code := REL_Y, value := v} =
        ({node with cursor_flt1 := flt,
                    cursor_my := cursor_clamp ((node.cursor_my : Int) + s)},
         [mouse_ev.analog 1 ((cursor_clamp ((node.cursor_my : Int) + s)) : Int) s])) ∧
    (∀ flt, process_axis node.cursor_flt1 v = (flt, none) →
      defhandler_mouse_record node {type := EV_REL, code := REL_Y, value := v} =
        ({node with cursor_flt1 := flt}, [])) ∧
    (∀ z : Int, z < 0 → cursor_clamp z = 0) := by
  refine ⟨?_, ?_, ?_, ?_, ?_⟩
  · intro flt s h
    simp [defhandler_mouse_record, EV_REL, EV_KEY, REL_X, h]
  · intro flt h
    simp [defhandler_mouse_record, EV_REL, EV_KEY, REL_X, h]
  · intro flt s h
    simp [defhandler_mouse_record, EV_REL, EV_KEY, REL_X, REL_Y, h]
  · intro flt h
    simp [defhandler_mouse_record, EV_REL, EV_KEY, REL_X, REL_Y, h]
  · intro z hz
    simp [cursor_clamp, hz]

/-- C7 (witness): the pass-through mouse `wmNode` accepting a relative X
delta of 7 — one analog event, counter 10 + 7 = 17 carried with the delta. -/
theorem claim_c7_witness :
    defhandler_mouse_record wmNode {type := EV_REL, code := REL_X, value := 7} =
      ({wmNode with cursor_flt0 := wmNode.cursor_flt0,
                    cursor_mx := cursor_clamp ((wmNode.cursor_mx : Int) + wrap16 7)},
       [mouse_ev.analog 0 ((cursor_clamp ((wmNode.cursor_mx : Int) + wrap16 7)) : Int)
          (wrap16 7)]) :=
  (claim_c7_amended wmNode 7).1 wmNode.cursor_flt0 (wrap16 7) (by decide)

/-- C7 (counterexample): the mouse `cmNode` whose X filter (Average, kernel
size 1, deadzone 10) accepts the raw delta 5 as the *output sample 0*
(deadzone entry) — yet the decoder adds the raw value 5 to the position
counter and emits (5, 5), not the filter's output 0, refuting the claim
that the filter's output sample is accumulated. -/
theorem claim_c7_counterexample :
    (process_axis cmNode.cursor_flt0 5).2 = some 0 ∧
    (defhandler_mouse_record cmNode
      {type := EV_REL, code := REL_X, value := 5}).1.cursor_mx = 5 ∧
    (defhandler_mouse_record cmNode
      {type := EV_REL, code := REL_X, value := 5}).2 = [mouse_ev.analog 0 5 5] := by
  decide
/-- C10: the per-axis filter-state query returns `ARCAN_ERRC_NO_SUCH_OBJECT`
when the device lookup fails and `ARCAN_ERRC_BAD_RESOURCE` when the device
exists but exposes no axis with that index for its class (keyboards and
touch devices expose none; game devices only indices below their axis
count); in both error cases the five output parameters are left exactly as
they were.  Only when an axis is found does it return `ARCAN_OK` with all
five outputs filled from that axis' state. -/
theorem claim_c10 (io : iodev_state) (devid : Int) (axisid : Nat) (outs : analog_outs) :
    (lookup_devnode io devid = none →
      platform_event_analogstate io devid axisid outs =
        (arcan_errc.ARCAN_ERRC_NO_SUCH_OBJECT, outs)) ∧
    (∀ node, lookup_devnode io devid = some node → axisFor node axisid = none →
      platform_event_analogstate io devid axisid outs =
        (arcan_errc.ARCAN_ERRC_BAD_RESOURCE, outs)) ∧
    (∀ node ax, lookup_devnode io devid = some node → axisFor node axisid = some ax →
      platform_event_analogstate io devid axisid outs =
        (arcan_errc.ARCAN_OK,
         {lower_bound := ax.lower, upper_bound := ax.upper, deadzone := ax.deadzone,
          kernel_size := ax.kernel_sz, mode := ax.mode})) ∧
    (∀ node, lookup_devnode io devid = some node →
      node.type = devnode_type.DEVNODE_KEYBOARD ∨
        node.type = devnode_type.DEVNODE_TOUCH →
      axisFor node axisid = none) ∧
    (∀ node, lookup_devnode io devid = some node →
      node.type = devnode_type.DEVNODE_GAME → node.game_axes ≤ axisid →
      axisFor node axisid = none) := by
  refine ⟨?_, ?_, ?_, ?_, ?_⟩
  · intro h
    simp [platform_event_analogstate, find_axis, h]
  · intro node h ha
    simp [platform_event_analogstate, find_axis, h, ha]
  · intro node ax h ha
    simp [platform_event_analogstate, find_axis, h, ha]
  · intro node _ ht
    rcases ht with ht | ht <;> simp [axisFor, ht]
  · intro node _ ht hle
    simp [axisFor, ht, Nat.not_lt.mpr hle]

/-- C10 (witness): querying device identity 7 on an empty registry returns
`ARCAN_ERRC_NO_SUCH_OBJECT` and leaves the out parameters untouched. -/
theorem claim_c10_witness :
    platform_event_analogstate emptyIo 7 0 wOuts =
      (arcan_errc.ARCAN_ERRC_NO_SUCH_OBJECT, wOuts) :=
  (claim_c10 emptyIo 7 0 wOuts).1 (by decide)
theorem scanSlots_matched (d : Nat) :
    ∀ (l : List arcan_devnode) (i : Nat) (hole : Option Nat) (j : Nat),
    j < l.length →
    (l.getD j emptyNode).devnum = d →
    (l.getD j emptyNode).handle > 0 →
    (∀ k, k < j → (l.getD k emptyNode).devnum ≠ d) →
    scanSlots d l i hole = ScanRes.matched (i + j) := by
  intro l
  induction l with
  | nil =>
    intro i hole j hj
    simp at hj
  | cons n rest ih =>
    intro i hole j hj hdev hh huniq
    cases j with
    | zero =>
      simp only [List.getD_cons_zero] at hdev hh
      unfold scanSlots
      rw [if_neg (by omega), if_pos hdev]
      rfl
    | succ j' =>
      have hne : n.devnum ≠ d := by
        simpa using huniq 0 (Nat.zero_lt_succ _)
      have hj' : j' < rest.length := by simpa using hj
      have hdev' : (rest.getD j' emptyNode).devnum = d := by simpa using hdev
      have hh' : (rest.getD j' emptyNode).handle > 0 := by simpa using hh
      have huniq' : ∀ k, k < j' → (rest.getD k emptyNode).devnum ≠ d := by
        intro k hk
        simpa using huniq (k + 1) (by omega)
      unfold scanSlots
      by_cases hcase : hole = none ∧ n.handle ≤ 0
      · rw [if_pos hcase, ih (i + 1) (some i) j' hj' hdev' hh' huniq']
        congr 1
        omega
      · rw [if_neg hcase, if_neg hne, ih (i + 1) hole j' hj' hdev' hh' huniq']
        congr 1
        omega

/-- C3 (amended): re-registering a device whose derived identity matches a
slot with a *valid* handle (and whose identity is unique among the slots
scanned before it) allocates nothing and leaves the device count unchanged:
the old descriptor is closed, the new one is spliced into the matching slot,
and the slot's label, identity, class and class sub-state — including every
axis-filter configuration — are untouched.  (If the matching slot's handle
is invalid and it is the first empty slot in scan order, `got_device`
instead treats it as a hole and takes the new-device path; see the
counterexample.) -/
theorem claim_c3_amended (io : iodev_state) (node : arcan_devnode) (j : Nat)
    (hj : j < io.nodes.length)
    (hd : (io.nodes.getD j emptyNode).devnum = node.devnum)
    (hh : (io.nodes.getD j emptyNode).handle > 0)
    (huniq : ∀ k, k < j → (io.nodes.getD k emptyNode).devnum ≠ node.devnum) :
    registerNode io node =
      ({io with
          nodes := io.nodes.set j ({io.nodes.getD j emptyNode with handle := node.handle}),
          pollset := io.pollset.set j (node.handle, true)},
       {outcome := ScanRes.matched j,
        closed_old := some (io.nodes.getD j emptyNode).handle,
        limit_closed := decide (io.n_devs ≥ MAX_DEVICES)}) := by
  unfold registerNode
  rw [show scanSlots node.devnum io.nodes 0 none = ScanRes.matched j from by
    simpa using scanSlots_matched node.devnum io.nodes 0 none j hj hd hh huniq]
  rw [List.getD_eq_getElem?_getD] at hh
  simp [hh]

/-- C3 (witness): re-registering identity 300 (still live on handle 4 in
`wIo3`) on new descriptor 7 splices the descriptor in, closes handle 4, and
leaves count and sub-state untouched. -/
theorem claim_c3_witness :
    registerNode wIo3 cNode3 =
      ({wIo3 with
          nodes := wIo3.nodes.set 0 ({wIo3.nodes.getD 0 emptyNode with handle := cNode3.handle}),
          pollset := wIo3.pollset.set 0 (cNode3.handle, true)},
       {outcome := ScanRes.matched 0,
        closed_old := some (wIo3.nodes.getD 0 emptyNode).handle,
        limit_closed := decide (wIo3.n_devs ≥ MAX_DEVICES)}) :=
  claim_c3_amended wIo3 cNode3 0 (by decide) (by decide) (by decide)
    (fun k hk => absurd hk (Nat.not_lt_zero k))

/-- C3 (counterexample): in `cIo3` the slot of identity 300 is disconnected
(handle 0) and is the first empty slot in scan order; re-registering
identity 300 therefore takes the new-device path — the device count grows
from 2 to 3 and the slot's axis-filter configuration (deadzone 10) is
replaced by the fresh node's (deadzone 0) — refuting the claim for this
registration whose identity matches an already-registered node. -/
theorem claim_c3_counterexample :
    cIo3.n_devs = 2 ∧
    (cIo3.nodes.getD 0 emptyNode).devnum = cNode3.devnum ∧
    (registerNode cIo3 cNode3).1.n_devs = 3 ∧
    ((registerNode cIo3 cNode3).1.nodes.getD 0 emptyNode).cursor_flt0.deadzone ≠
      (cIo3.nodes.getD 0 emptyNode).cursor_flt0.deadzone := by
  decide
theorem scanSlots_skip_live (d : Nat) :
    ∀ (pre rest : List arcan_devnode) (i : Nat),
    (∀ n ∈ pre, 0 < n.handle ∧ n.devnum ≠ d) →
    scanSlots d (pre ++ rest) i none = scanSlots d rest (i + pre.length) none := by
  intro pre
  induction pre with
  | nil =>
    intro rest i _
    simp
  | cons n pre' ih =>
    intro rest i hall
    have hn := hall n (by simp)
    have hng : ¬ ((none : Option Nat) = none ∧ n.handle ≤ 0) := by
      rintro ⟨-, hc⟩
      have := hn.1
      omega
    rw [List.cons_append]
    conv_lhs => unfold scanSlots
    rw [if_neg hng, if_neg hn.2]
    rw [ih rest (i + 1) (fun x hx => hall x (by simp [hx]))]
    have harith : i + 1 + pre'.length = i + (n :: pre').length := by
      simp [List.length_cons]
      omega
    rw [harith]
theorem scanSlots_empties_hole (d : Nat) (hd : d ≠ 0) :
    ∀ (m i h : Nat), scanSlots d (List.replicate m emptyNode) i (some h) =
      ScanRes.nomatch (some h) := by
  intro m
  induction m with
  | zero =>
    intro i h
    rfl
  | succ m' ih =>
    intro i h
    rw [List.replicate_succ]
    conv_lhs => unfold scanSlots
    rw [if_neg (by simp), if_neg (by simp [emptyNode]; omega)]
    exact ih (i + 1) h

theorem scanSlots_empties (d : Nat) (hd : d ≠ 0) :
    ∀ (m i : Nat), scanSlots d (List.replicate m emptyNode) i none =
      ScanRes.nomatch (if m = 0 then none else some i) := by
  intro m
  induction m with
  | zero =>
    intro i
    rfl
  | succ m' _ =>
    intro i
    rw [List.replicate_succ]
    conv_lhs => unfold scanSlots
    rw [if_pos (by simp [emptyNode])]
    rw [scanSlots_empties_hole d hd m' (i + 1) i]
    simp
theorem set_append_len {α : Type} (A B : List α) (v : α) :
    (A ++ B).set A.length v = A ++ B.set 0 v := by
  rw [List.set_append_right _ _ (Nat.le_refl _), Nat.sub_self]

theorem set_append_map {α : Type} (f : Nat → α) (ds : List Nat) (B : List α) (v : α) :
    ((ds.map f) ++ B).set ds.length v = ds.map f ++ B.set 0 v := by
  rw [← List.length_map ds f]
  exact set_append_len _ _ _

theorem registerNode_fresh (done : List Nat) (m : Nat) (d : Nat)
    (hd : 0 < d) (hnotin : d ∉ done) (hall : ∀ x ∈ done, 0 < x) :
    (registerNode (mkState done m) (mkFreshNode d)).1 =
      mkState (done ++ [d]) (if m = 0 then 7 else m - 1) := by
  have hlive : ∀ n ∈ done.map mkFreshNode, 0 < n.handle ∧ n.devnum ≠ d := by
    intro n hn
    rcases List.mem_map.mp hn with ⟨x, hx, rfl⟩
    have hx0 := hall x hx
    refine ⟨by simp [mkFreshNode, emptyNode]; omega, ?_⟩
    simp only [mkFreshNode]
    intro hcon
    exact hnotin (by simpa [hcon] using hx)
  have hscan : scanSlots d (mkState done m).nodes 0 none =
      ScanRes.nomatch (if m = 0 then none else some done.length) := by
    show scanSlots d (done.map mkFreshNode ++ List.replicate m emptyNode) 0 none = _
    rw [scanSlots_skip_live d (done.map mkFreshNode) _ 0 hlive]
    rw [scanSlots_empties d (by omega) m (0 + (done.map mkFreshNode).length)]
    rw [Nat.zero_add, List.length_map]
  have hmapP : List.map (fun x => (Int.ofNat x, true)) (done ++ [d]) =
      List.map (fun x => (Int.ofNat x, true)) done ++ [(Int.ofNat d, true)] := by
    rw [List.map_append, List.map_cons, List.map_nil]
  have hmapN : List.map mkFreshNode (done ++ [d]) =
      List.map mkFreshNode done ++ [mkFreshNode d] := by
    rw [List.map_append, List.map_cons, List.map_nil]
  have hlen1 : (done ++ [d]).length = done.length + 1 := by
    rw [List.length_append]
    rfl
  unfold registerNode
  rw [show (mkFreshNode d).devnum = d from rfl, hscan]
  cases m with
  | zero =>
    rw [show (if (0:Nat) = 0 then (none : Option Nat) else some done.length) = none
      from rfl]
    dsimp only
    unfold mkState
    dsimp only
    rw [show (if (0:Nat) = 0 then (7:Nat) else 0 - 1) = 7 from rfl]
    rw [List.replicate_zero, List.append_nil, List.replicate_zero, List.append_nil]
    rw [show done.length + 0 = done.length from rfl]
    rw [set_append_map, set_append_map]
    rw [show (List.replicate 8 emptyNode).set 0 (mkFreshNode d) =
      mkFreshNode d :: List.replicate 7 emptyNode from rfl]
    rw [show (List.replicate 8 ((0:Int), false)).set 0 ((mkFreshNode d).handle, true) =
      ((mkFreshNode d).handle, true) :: List.replicate 7 ((0:Int), false) from rfl]
    rw [hmapP, hmapN, hlen1, List.append_assoc, List.append_assoc,
      List.singleton_append, List.singleton_append]
    rw [show done.length + 1 + 7 = done.length + 0 + 8 from by omega]
    rw [show ((mkFreshNode d).handle, true) = (Int.ofNat d, true) from rfl]
  | succ m' =>
    rw [show (if m' + 1 = 0 then (none : Option Nat) else some done.length) =
      some done.length from rfl]
    dsimp only
    unfold mkState
    dsimp only
    rw [show (if m' + 1 = 0 then (7:Nat) else m' + 1 - 1) = m' from by simp]
    rw [set_append_map, set_append_map]
    rw [show (List.replicate (m' + 1) emptyNode).set 0 (mkFreshNode d) =
      mkFreshNode d :: List.replicate m' emptyNode from by rw [List.replicate_succ]; rfl]
    rw [show (List.replicate (m' + 1) ((0:Int), false)).set 0
        ((mkFreshNode d).handle, true) =
      ((mkFreshNode d).handle, true) :: List.replicate m' ((0:Int), false) from by
        rw [List.replicate_succ]; rfl]
    rw [hmapP, hmapN, hlen1, List.append_assoc, List.append_assoc,
      List.singleton_append, List.singleton_append]
    rw [show done.length + 1 + m' = done.length + (m' + 1) from by omega]
    rw [show ((mkFreshNode d).handle, true) = (Int.ofNat d, true) from rfl]
theorem regMany_cons (io : iodev_state) (d : Nat) (ds : List Nat) :
    regMany io (d :: ds) = regMany (registerNode io (mkFreshNode d)).1 ds := by
  simp [regMany, List.foldl_cons]

theorem regMany_mkState :
    ∀ (todo done : List Nat) (m : Nat),
    (∀ x ∈ done, 0 < x) → (∀ x ∈ todo, 0 < x) →
    (done ++ todo).Nodup →
    ∃ m', regMany (mkState done m) todo = mkState (done ++ todo) m' := by
  intro todo
  induction todo with
  | nil =>
    intro done m _ _ _
    exact ⟨m, by simp [regMany]⟩
  | cons d todo' ih =>
    intro done m hdone htodo hnodup
    have hd0 : 0 < d := htodo d (by simp)
    have hnotin : d ∉ done := by
      rcases List.nodup_append.mp hnodup with ⟨-, -, hdisj⟩
      intro hcon
      exact hdisj hcon (by simp)
    rw [regMany_cons, registerNode_fresh done m d hd0 hnotin hdone]
    have hnodup' : ((done ++ [d]) ++ todo').Nodup := by
      rw [List.append_assoc, List.singleton_append]
      exact hnodup
    have hdone' : ∀ x ∈ done ++ [d], 0 < x := by
      intro x hx
      rcases List.mem_append.mp hx with hx | hx
      · exact hdone x hx
      · simp at hx
        omega
    rcases ih (done ++ [d]) (if m = 0 then 7 else m - 1)
      hdone' (fun x hx => htodo x (by simp [hx])) hnodup' with ⟨m', hm'⟩
    refine ⟨m', ?_⟩
    rw [hm', List.append_assoc, List.singleton_append]
theorem mkState_ndevs (ds : List Nat) (m : Nat) : (mkState ds m).n_devs = ds.length := rfl

theorem mkState_mouseid (ds : List Nat) (m : Nat) : (mkState ds m).mouseid = 0 := rfl

theorem ds300_length : ds300.length = 300 := by
  unfold ds300
  rw [List.length_map, List.length_range]

theorem ds300_getD (i : Nat) (h : i < 300) : ds300.getD i 0 = 256 + i := by
  unfold ds300
  rw [List.getD_eq_getElem?_getD, List.getElem?_map, List.getElem?_range h]
  rfl

theorem regMany_ds300 : ∃ m', regMany emptyIo ds300 = mkState ds300 m' := by
  have h0 : mkState [] 0 = emptyIo := rfl
  have htodo : ∀ x ∈ ds300, 0 < x := by
    intro x hx
    rcases List.mem_map.mp hx with ⟨i, _, rfl⟩
    omega
  have hnodup : (([] : List Nat) ++ ds300).Nodup := by
    rw [List.nil_append]
    exact List.Nodup.map (fun a b hab => by omega) (List.nodup_range 300)
  rcases regMany_mkState ds300 [] 0 (by intro x hx; simp at hx) htodo hnodup with ⟨m', hm'⟩
  rw [h0, List.nil_append] at hm'
  exact ⟨m', hm'⟩

theorem mkState_node (ds : List Nat) (m i : Nat) (h : i < ds.length) :
    (mkState ds m).nodes.getD i emptyNode = mkFreshNode (ds.getD i 0) := by
  show (ds.map mkFreshNode ++ List.replicate m emptyNode).getD i emptyNode = _
  rw [List.getD_eq_getElem?_getD,
    List.getElem?_append_left (by rw [List.length_map]; exact h),
    List.getElem?_map, List.getD_eq_getElem?_getD,
    List.getElem?_eq_getElem h]
  rfl

theorem lookup_mkState_direct (ds : List Nat) (m : Nat) (devid : Nat)
    (h : devid < ds.length) :
    lookup_devnode (mkState ds m) ((devid : Nat) : Int) =
      some (mkFreshNode (ds.getD devid 0)) := by
  have hinner : (if ((devid : Nat) : Int) < 0 then ((mkState ds m).mouseid : Int)
      else ((devid : Nat) : Int)) = ((devid : Nat) : Int) := by
    rw [if_neg (by omega)]
  have hlt : ((devid : Nat) : Int) < ((mkState ds m).n_devs : Int) := by
    rw [mkState_ndevs]
    exact_mod_cast h
  unfold lookup_devnode
  rw [hinner, if_pos hlt]
  rw [show ((devid : Nat) : Int).toNat = devid from by omega]
  rw [mkState_node ds m devid h]

theorem lookup_mkState_scan (ds : List Nat) (m : Nat) (devid : Nat)
    (h : ¬ (devid < ds.length)) :
    lookup_devnode (mkState ds m) ((devid : Nat) : Int) =
      (ds.map mkFreshNode).find?
        (fun n => ((n.devnum : Nat) : Int) == ((devid : Nat) : Int)) := by
  have hinner : (if ((devid : Nat) : Int) < 0 then ((mkState ds m).mouseid : Int)
      else ((devid : Nat) : Int)) = ((devid : Nat) : Int) := by
    rw [if_neg (by omega)]
  have hlt : ¬ (((devid : Nat) : Int) < ((mkState ds m).n_devs : Int)) := by
    rw [mkState_ndevs]
    exact_mod_cast h
  unfold lookup_devnode
  rw [hinner, if_neg hlt]
  show ((ds.map mkFreshNode ++ List.replicate m emptyNode).take
    (mkState ds m).n_devs).find? _ = _
  rw [mkState_ndevs]
  rw [List.take_left' (List.length_map ds mkFreshNode)]

theorem find_fresh : ∀ (k base dv : Nat), base ≤ dv → dv < base + k →
    ((List.range k).map (fun j => mkFreshNode (base + j))).find?
      (fun n => ((n.devnum : Nat) : Int) == ((dv : Nat) : Int)) =
      some (mkFreshNode dv) := by
  intro k
  induction k with
  | zero =>
    intro base dv h1 h2
    omega
  | succ k' ih =>
    intro base dv h1 h2
    rw [List.range_succ_eq_map, List.map_cons, List.map_map]
    have hfun : ((fun j => mkFreshNode (base + j)) ∘ Nat.succ) =
        (fun j => mkFreshNode (base + 1 + j)) := by
      funext j
      show mkFreshNode (base + Nat.succ j) = mkFreshNode (base + 1 + j)
      rw [show base + Nat.succ j = base + 1 + j from by omega]
    rw [hfun]
    by_cases hbd : base = dv
    · subst hbd
      rw [List.find?_cons_of_pos _ (by simp [mkFreshNode])]
      rw [show base + 0 = base from rfl]
    · rw [List.find?_cons_of_neg _ (by simp [mkFreshNode]; exact hbd)]
      exact ih (base + 1) dv (by omega) (by omega)
/-- C8 (amended): registering 300 synthetic devices with the distinct
derived identities 256..555 does *succeed* in occupying 300 registry slots —
the `MAX_DEVICES` check only warns and closes the descriptor, it does not
stop the registration — but not all 300 are resolvable by identity: because
the device count (300) now exceeds the dense-index ceiling (256), a lookup
of any identity in 256..299 is treated as a direct slot offset and returns
the device stored in that slot (identity 512..555) instead; only the
devices whose identity is at least the device count (300..555) remain
resolvable by identity. -/
theorem claim_c8_amended :
    (regMany emptyIo ds300).n_devs = 300 ∧
    (∀ i, i < 300 →
      ((regMany emptyIo ds300).nodes.getD i emptyNode).devnum = 256 + i) ∧
    (∀ i, 44 ≤ i → i < 300 →
      lookup_devnode (regMany emptyIo ds300) ((256 + i : Nat) : Int) =
        some (mkFreshNode (256 + i))) ∧
    (∀ i, i < 44 →
      lookup_devnode (regMany emptyIo ds300) ((256 + i : Nat) : Int) =
        some (mkFreshNode (512 + i)) ∧ 512 + i ≠ 256 + i) := by
  obtain ⟨m', hio⟩ := regMany_ds300
  rw [hio]
  refine ⟨by rw [mkState_ndevs, ds300_length], ?_, ?_, ?_⟩
  · intro i hi
    rw [mkState_node ds300 m' i (by rw [ds300_length]; exact hi), ds300_getD i hi]
    rfl
  · intro i h44 hi
    have hge : ¬ (256 + i < ds300.length) := by
      rw [ds300_length]
      omega
    rw [lookup_mkState_scan ds300 m' (256 + i) hge]
    have hmm : ds300.map mkFreshNode =
        (List.range 300).map (fun j => mkFreshNode (256 + j)) := by
      unfold ds300
      rw [List.map_map]
      rfl
    rw [hmm]
    exact find_fresh 300 256 (256 + i) (by omega) (by omega)
  · intro i hi
    refine ⟨?_, by omega⟩
    have hlt : 256 + i < ds300.length := by
      rw [ds300_length]
      omega
    rw [lookup_mkState_direct ds300 m' (256 + i) hlt, ds300_getD (256 + i) (by omega)]
    rw [show 256 + (256 + i) = 512 + i from by omega]

/-- C8 (witness): identity 300 (= 256 + 44, not below the final device
count) is still resolvable after the 300 registrations. -/
theorem claim_c8_witness :
    (regMany emptyIo ds300).n_devs = 300 ∧
    lookup_devnode (regMany emptyIo ds300) ((256 + 44 : Nat) : Int) =
      some (mkFreshNode (256 + 44)) :=
  ⟨claim_c8_amended.1, claim_c8_amended.2.2.1 44 (by omega) (by omega)⟩

/-- C8 (counterexample): after registering the 300 distinct identities
256..555 the registry holds all of them (count 300, identity 256 in slot 0),
but looking identity 256 up returns the device with identity 512 — the one
sitting in slot 256 — so not every one of the 300 devices is resolvable by
its identity, refuting the claim. -/
theorem claim_c8_counterexample :
    (regMany emptyIo ds300).n_devs = 300 ∧
    ((regMany emptyIo ds300).nodes.getD 0 emptyNode).devnum = 256 ∧
    lookup_devnode (regMany emptyIo ds300) ((256 : Nat) : Int) =
      some (mkFreshNode 512) ∧
    (mkFreshNode 512).devnum ≠ 256 := by
  obtain ⟨m', hio⟩ := regMany_ds300
  rw [hio]
  refine ⟨by rw [mkState_ndevs, ds300_length], ?_, ?_, by decide⟩
  · rw [mkState_node ds300 m' 0 (by rw [ds300_length]; omega), ds300_getD 0 (by omega)]
    rfl
  · rw [lookup_mkState_direct ds300 m' 256 (by rw [ds300_length]; omega)]
    rw [ds300_getD 256 (by omega)]
